import Mathlib

/-!
# godojo: the Ubuntu/Debian install-plan assemblers (`ubuntu.go`)

A shallow embedding of `ubuntu.go`.  Go strings are Lean `String`s (valid UTF-8
only), Go slices are Lean lists, a `*osCmds` out-parameter is a bundle that is
taken and returned, and Go `int` is a 64-bit two's complement integer.  Of the
log output only the trace messages that `ubuntuSetupDDjango` itself writes are
part of the model; a call of `os.Exit` is the result `none`.
-/

namespace Godojo

/-! ## Library functions used by the source -/

/-- Go `unicode.ToLower` on one code point, as far as comparison with ASCII text
can tell: the ASCII capitals go to their small letters, and the only two
non-ASCII code points whose lower-case mapping is an ASCII letter are mapped to
it (U+0130 to `i`, U+212A to `k`).  Every other code point is mapped by Go to a
non-ASCII code point and is left in place here. -/
def unicodeToLower (c : Char) : Char :=
  if 'A' ≤ c ∧ c ≤ 'Z' then Char.ofNat (c.toNat + 32)
  else if c = Char.ofNat 0x130 then 'i'
  else if c = Char.ofNat 0x212A then 'k'
  else c

/-- Go `strings.ToLower`: every code point is mapped by `unicode.ToLower`. -/
def stringsToLower (s : String) : String :=
  String.mk (s.data.map unicodeToLower)

/-- Split a list of characters at every occurrence of `sep`; the result always
has one more piece than there are separators. -/
def splitChars (sep : Char) : List Char → List (List Char)
  | [] => [[]]
  | c :: cs =>
    if c = sep then [] :: splitChars sep cs
    else
      match splitChars sep cs with
      | [] => [[c]]
      | p :: ps => (c :: p) :: ps

/-- Go `strings.Split(s, sep)` for a separator of one character, which is what
both call sites in the source pass (`"."` and `"="`). -/
def stringsSplit (s : String) (sep : Char) : List String :=
  (splitChars sep s.data).map String.mk

/-- Go `int` is 64 bits wide on the platforms the installer is built for. -/
def intSize : Nat := 64

/-- The two errors of Go `strconv`: `ErrSyntax` and `ErrRange`. -/
inductive NumError where
  | errSyn
  | errRange
  deriving DecidableEq, Repr

/-- The largest `uint64`. -/
def maxUint64 : Nat := 2 ^ 64 - 1

/-- The digit loop of Go `strconv.ParseUint(s, 10, 64)`, with `n` the value read
so far. In base 10 every byte other than `0`..`9` is a syntax error (a letter is
a digit of value 10 or more, an underscore is only legal for base 0). Arithmetic
is `uint64`: `n * 10` cannot wrap below the cutoff, `n * 10 + d` may. -/
def parseUintLoop : Nat → List Char → Nat × Option NumError
  | n, [] => (n, none)
  | n, c :: cs =>
    if '0' ≤ c ∧ c ≤ '9' then
      let d := c.toNat - '0'.toNat
      if n ≥ maxUint64 / 10 + 1 then (maxUint64, some NumError.errRange)
      else
        let n10 := n * 10
        let n1 := (n10 + d) % 2 ^ 64
        if n1 < n10 ∨ n1 > maxUint64 then (maxUint64, some NumError.errRange)
        else parseUintLoop n1 cs
    else (0, some NumError.errSyn)

/-- Go `strconv.ParseUint(s, 10, 0)`: the value and the error. -/
def ParseUint (s : List Char) : Nat × Option NumError :=
  if s = [] then (0, some NumError.errSyn) else parseUintLoop 0 s

/-- Go `strconv.ParseInt(s, 10, 0)`: an optional sign, then `ParseUint`; a value
out of the range of `int64` is replaced by the nearest bound, with `ErrRange`. -/
def ParseInt (s : List Char) : Int × Option NumError :=
  match s with
  | [] => (0, some NumError.errSyn)
  | c :: cs =>
    let neg : Bool := c = '-'
    let rest := if c = '+' ∨ c = '-' then cs else c :: cs
    match ParseUint rest with
    | (_, some NumError.errSyn) => (0, some NumError.errSyn)
    | (un, _) =>
      let cutoff : Nat := 2 ^ (intSize - 1)
      if neg = false ∧ un ≥ cutoff then ((cutoff : Int) - 1, some NumError.errRange)
      else if neg = true ∧ un > cutoff then (-(cutoff : Int), some NumError.errRange)
      else (if neg then -(un : Int) else (un : Int), none)

/-- The digit loop of the fast path of Go `strconv.Atoi`. -/
def atoiFast : Nat → List Char → Option Nat
  | n, [] => some n
  | n, c :: cs =>
    if '0' ≤ c ∧ c ≤ '9' then atoiFast (n * 10 + (c.toNat - '0'.toNat)) cs
    else none

/-- Go `strconv.Atoi`: the value and the error. Strings of 1 to 18 bytes take the
fast path, which cannot overflow; all others go through `ParseInt`. -/
def Atoi (s : String) : Int × Option NumError :=
  let sLen := s.utf8ByteSize
  if 0 < sLen ∧ sLen < 19 then
    match s.data with
    | [] => (0, some NumError.errSyn)
    | c :: cs =>
      let ds := if c = '-' ∨ c = '+' then cs else c :: cs
      if ds.length < 1 then (0, some NumError.errSyn)
      else
        match atoiFast 0 ds with
        | none => (0, some NumError.errSyn)
        | some n => (if c = '-' then -(n : Int) else (n : Int), none)
  else ParseInt s.data

/-! ## Data model -/

/-- Modelled from the spec: the struct `osCmds` is declared outside `ubuntu.go`.
A command bundle is a platform id and three parallel sequences: the shell
commands, one error message per command and one hardness flag per command. The
field names and types are the ones `ubuntu.go` assigns to. -/
structure osCmds where
  id : String
  cmds : List String
  errmsg : List String
  hard : List Bool
  deriving DecidableEq, Repr

/-- The Go zero value of `osCmds`: a freshly constructed, empty bundle. -/
def emptyCmds : osCmds := ⟨"", [], [], []⟩

/-- Modelled from the spec: `config.InstallConfig.OS`, the target-system account. -/
structure OSConfig where
  User : String
  Group : String
  deriving DecidableEq, Repr

/-- Modelled from the spec: `config.InstallConfig.Admin`, the app superuser. -/
structure AdminConfig where
  User : String
  Pass : String
  Email : String
  deriving DecidableEq, Repr

/-- Modelled from the spec: the fields of `config.InstallConfig` that
`ubuntu.go` reads. The struct is declared in the `config` package. -/
structure InstallConfig where
  Root : String
  OS : OSConfig
  Admin : AdminConfig
  Version : String
  SourceInstall : Bool
  deriving DecidableEq, Repr

/-- Modelled from the spec: `addCmd` is defined outside `ubuntu.go`. It is the
append-one operation of the command runner: it extends an existing bundle with
one `(command, errmsg, hard)` triple, at the end of each of the three sequences. -/
def addCmd (b : osCmds) (cmd : String) (errmsg : String) (hard : Bool) : osCmds :=
  { b with cmds := b.cmds ++ [cmd], errmsg := b.errmsg ++ [errmsg], hard := b.hard ++ [hard] }

/-! ## The assemblers -/

/-- The assembler `ubuntuInitOSInst`: the bootstrap bundle. The switch is on the lowercased id;
the five cases fall through to one body. The package-level constants `YarnGPG`,
`YarnRepo` and `NodeURL` are declared outside `ubuntu.go` and are parameters. -/
def ubuntuInitOSInst (YarnGPG YarnRepo NodeURL : String) (id : String) (b : osCmds) : osCmds :=
  let lid := stringsToLower id
  if lid = "debian:10" ∨ lid = "ubuntu:18.04" ∨ lid = "ubuntu:20.04" ∨ lid = "ubuntu:20.10"
      ∨ lid = "ubuntu:21.04" then
    { id := id
      cmds := [
        "curl -sS " ++ YarnGPG ++ " | apt-key add -",
        "echo -n " ++ YarnRepo ++ " > /etc/apt/sources.list.d/yarn.list",
        "DEBIAN_FRONTEND=noninteractive apt-get update",
        "DEBIAN_FRONTEND=noninteractive apt-get install sudo",
        "curl -sL " ++ NodeURL ++ " | bash - ",
        "DEBIAN_FRONTEND=noninteractive apt-get install -y apt-transport-https libjpeg-dev gcc libssl-dev python3-dev python3-pip python3-virtualenv yarn build-essential expect"]
      errmsg := [
        "Unable to obtain the gpg key for Yarn",
        "Unable to add yard repo as an apt source",
        "Unable to update apt database",
        "Unable to install sudo",
        "Unable to install nodejs",
        "Installing OS packages with apt failed"]
      hard := [true, true, true, true, true, true] }
  else b

/-- The assembler `ubuntuInstSQLite`: the switch is on `id` itself. -/
def ubuntuInstSQLite (id : String) (b : osCmds) : osCmds :=
  if id = "ubuntu:18.04" ∨ id = "ubuntu:20.04" ∨ id = "ubuntu:20.10" ∨ id = "ubuntu:21.04" then
    { id := id
      cmds := ["DEBIAN_FRONTEND=noninteractive apt-get install -y sqlite3"]
      errmsg := ["Unable to install SQLite"]
      hard := [true] }
  else b

/-- The assembler `ubuntuInstMariaDB`: the switch is on `id` itself. -/
def ubuntuInstMariaDB (id : String) (b : osCmds) : osCmds :=
  if id = "ubuntu:18.04" ∨ id = "ubuntu:20.04" ∨ id = "ubuntu:20.10" ∨ id = "ubuntu:21.04" then
    { id := id
      cmds := ["DEBIAN_FRONTEND=noninteractive apt-get install -y mariadb-server libmariadbclient-dev"]
      errmsg := ["Unable to install MariaDB"]
      hard := [true] }
  else b

/-- The assembler `ubuntuInstMySQL`: the switch is on `id` itself. -/
def ubuntuInstMySQL (id : String) (b : osCmds) : osCmds :=
  if id = "ubuntu:18.04" ∨ id = "ubuntu:20.04" ∨ id = "ubuntu:20.10" ∨ id = "ubuntu:21.04" then
    { id := id
      cmds := ["DEBIAN_FRONTEND=noninteractive apt-get install -y mysql-server libmysqlclient-dev"]
      errmsg := ["Unable to install MySQL"]
      hard := [true] }
  else b

/-- The assembler `ubuntuInstPostgreSQL`: the switch is on the lowercased id. -/
def ubuntuInstPostgreSQL (id : String) (b : osCmds) : osCmds :=
  let lid := stringsToLower id
  if lid = "debian:10" ∨ lid = "ubuntu:18.04" ∨ lid = "ubuntu:20.04" ∨ lid = "ubuntu:20.10"
      ∨ lid = "ubuntu:21.04" then
    { id := id
      cmds := ["DEBIAN_FRONTEND=noninteractive apt-get install -y libpq-dev postgresql postgresql-contrib postgresql-client-common"]
      errmsg := ["Unable to install PostgreSQL"]
      hard := [true] }
  else b

/-- The assembler `ubuntuInstPostgreSQLClient`: the switch is on `id` itself. -/
def ubuntuInstPostgreSQLClient (id : String) (b : osCmds) : osCmds :=
  if id = "ubuntu:18.04" ∨ id = "ubuntu:20.04" ∨ id = "ubuntu:20.10" ∨ id = "ubuntu:21.04" then
    { id := id
      cmds := [
        "DEBIAN_FRONTEND=noninteractive apt-get install -y postgresql-client-12",
        "/usr/sbin/groupadd -f postgres",
        "/usr/sbin/useradd -s /bin/bash -m -g postgres postgres"]
      errmsg := [
        "Unable to install PostgreSQL client",
        "Unable to add postgres group",
        "Unable to add postgres user"]
      hard := [true, true, true] }
  else b

/-- The assembler `ubuntuOSPrep`: the switch is on `id` itself. -/
def ubuntuOSPrep (id : String) (inst : InstallConfig) (b : osCmds) : osCmds :=
  if id = "ubuntu:18.04" ∨ id = "ubuntu:20.04" ∨ id = "ubuntu:20.10" ∨ id = "ubuntu:21.04" then
    { id := id
      cmds := [
        "python3 -m virtualenv --python=/usr/bin/python3 " ++ inst.Root,
        inst.Root ++ "/bin/python3 -m pip install --upgrade pip",
        inst.Root ++ "/bin/pip3 install -r " ++ inst.Root ++ "/django-DefectDojo/requirements.txt",
        "mkdir " ++ inst.Root ++ "/logs",
        "/usr/sbin/groupadd -f " ++ inst.OS.Group,
        "id " ++ inst.OS.User ++ " &>/dev/null; if [ $? -ne 0 ]; then useradd -s /bin/bash -m -g " ++ inst.OS.Group ++ " " ++ inst.OS.User ++ "; fi",
        "chown -R " ++ inst.OS.User ++ "." ++ inst.OS.Group ++ " " ++ inst.Root]
      errmsg := [
        "Unable to setup virtualenv for DefectDojo",
        "Unable to update pip to latest",
        "Unable to install Python3 modules for DefectDojo",
        "Unable to create a directory for logs",
        "Unable to create a group for DefectDojo OS user",
        "Unable to create an OS user for DefectDojo",
        "Unable to change ownership of the DefectDojo app root directory"]
      hard := [true, true, true, true, true, true, true] }
  else b

/-- The function `onlyAfter`: the version gate. The version is split at the dots; the three
pieces are converted with `Atoi`, whose error is discarded; each value is then
compared with its own bound. -/
def onlyAfter (v : String) (major : Int) (minor : Int) (patch : Int) : Bool :=
  match stringsSplit v '.' with
  | [b0, b1, b2] =>
    let vMaj := (Atoi b0).1
    let vMin := (Atoi b1).1
    let vPat := (Atoi b2).1
    if vMaj < major then false
    else if vMin < minor then false
    else if vPat < patch then false
    else true
  | _ => false

/-- What the installer does to the host outside the bundle: an asset written by
`injectFile` (name, directory, file mode), one command run by `tryCmd`
(command, error message, hardness), or one line written by `traceMsg`. -/
inductive Action where
  | injectFile (n : String) (p : String) (mask : Nat)
  | tryCmd (cmd : String) (errmsg : String) (hard : Bool)
  | traceMsg (msg : String)
  deriving DecidableEq, Repr

/-- The function `patchOMatic`: the actions performed, in order, and the returned error
(`none` for Go `nil`). The results of `injectFile` and `tryCmd` are discarded. -/
def patchOMatic (inst : InstallConfig) : List Action × Option String :=
  if inst.SourceInstall then ([], none)
  else if inst.Version = "1.15.1" then
    ([Action.injectFile "factory_2.0.3" (inst.Root ++ "/django-DefectDojo/dojo/tools") 755,
      Action.tryCmd
        ("mv -f " ++ inst.Root ++ "/django-DefectDojo/dojo/tools/factory.py " ++ inst.Root ++ "/django-DefectDojo/dojo/tools/factory_py.buggy")
        "Error renaming factory.py to factory_py.buggy" false,
      Action.tryCmd
        ("mv -f " ++ inst.Root ++ "/django-DefectDojo/dojo/tools/factory_2.0.3 " ++ inst.Root ++ "/django-DefectDojo/dojo/tools/factory.py")
        "Error replacing factory.py with updated one from version 2.0.3" false],
     none)
  else ([], none)

/-- The assembler `ubuntuSetupDDjango`: the actions performed before the switch, and the
bundle. The two trace lines about a failed patch are written only when the error
returned by `patchOMatic` is not `nil`. The switch is on `id` itself. The
shell-escaping helper `escSpCar` is defined outside `ubuntu.go` and is a
parameter. -/
def ubuntuSetupDDjango (escSpCar : String → String) (id : String) (inst : InstallConfig)
    (b : osCmds) : List Action × osCmds :=
  let acts :=
    [Action.traceMsg ("Injecting file setup-superuser.expect at " ++ inst.Root ++ "/django-DefectDojo"),
     Action.injectFile "setup-superuser.expect" (inst.Root ++ "/django-DefectDojo") 0o755]
    ++ (patchOMatic inst).1
    ++ (match (patchOMatic inst).2 with
        | some err =>
          [Action.traceMsg ("patchOMatic failed with non-blocking error: " ++ err),
           Action.traceMsg "A failure of patchOMatic may lead to a corrupt install - be warned"]
        | none => [])
  if id = "ubuntu:18.04" ∨ id = "ubuntu:20.04" ∨ id = "ubuntu:20.10" ∨ id = "ubuntu:21.04" then
    let b := addCmd b ("cd " ++ inst.Root ++ "/django-DefectDojo && source ../bin/activate && python3 manage.py makemigrations dojo")
      "Failed during makemgration dojo" true
    let b := addCmd b ("cd " ++ inst.Root ++ "/django-DefectDojo && source ../bin/activate && python3 manage.py migrate")
      "Failed during database migrate" true
    let adminEmail :=
      if inst.Admin.Email.utf8ByteSize > 0 then inst.Admin.Email else "default.user@defectdojo.org"
    let b := addCmd b ("cd " ++ inst.Root ++ "/django-DefectDojo && source ../bin/activate && python3 manage.py createsuperuser --noinput --username=\"" ++
      inst.Admin.User ++ "\" --email=\"" ++ adminEmail ++ "\"")
      "Failed while creating DefectDojo superuser" true
    let b := addCmd b ("cd " ++ inst.Root ++ "/django-DefectDojo && source ../bin/activate && " ++
      inst.Root ++ "/django-DefectDojo/setup-superuser.expect " ++ inst.Admin.User ++ " \"" ++ escSpCar inst.Admin.Pass ++ "\"")
      "Failed while setting the password for the DefectDojo superuser" true
    let b :=
      if onlyAfter inst.Version 2 0 0 then
        addCmd b ("cd " ++ inst.Root ++ "/django-DefectDojo && source ../bin/activate && python3 manage.py loaddata role")
          "Failed while the loading data for role" true
      else b
    let b := addCmd b ("cd " ++ inst.Root ++ "/django-DefectDojo && source ../bin/activate && python3 manage.py loaddata product_type")
      "Failed while the loading data for product_type" true
    let b := addCmd b ("cd " ++ inst.Root ++ "/django-DefectDojo && source ../bin/activate && python3 manage.py loaddata test_type")
      "Failed while the loading data for test_type" true
    let b := addCmd b ("cd " ++ inst.Root ++ "/django-DefectDojo && source ../bin/activate && python3 manage.py loaddata development_environment")
      "Failed while the loading data for development_environment" true
    let b := addCmd b ("cd " ++ inst.Root ++ "/django-DefectDojo && source ../bin/activate && python3 manage.py loaddata system_settings")
      "Failed while the loading data for system_settings" true
    let b := addCmd b ("cd " ++ inst.Root ++ "/django-DefectDojo && source ../bin/activate && python3 manage.py loaddata benchmark_type")
      "Failed while the loading data for benchmark_type" true
    let b := addCmd b ("cd " ++ inst.Root ++ "/django-DefectDojo && source ../bin/activate && python3 manage.py loaddata benchmark_category")
      "Failed while the loading data for benchmark_category" true
    let b := addCmd b ("cd " ++ inst.Root ++ "/django-DefectDojo && source ../bin/activate && python3 manage.py loaddata benchmark_requirement")
      "Failed while the loading data for benchmark_requirement" true
    let b := addCmd b ("cd " ++ inst.Root ++ "/django-DefectDojo && source ../bin/activate && python3 manage.py loaddata language_type")
      "Failed while the loading data for language_type" true
    let b := addCmd b ("cd " ++ inst.Root ++ "/django-DefectDojo && source ../bin/activate && python3 manage.py loaddata objects_review")
      "Failed while the loading data for objects_review" true
    let b := addCmd b ("cd " ++ inst.Root ++ "/django-DefectDojo && source ../bin/activate && python3 manage.py loaddata regulation")
      "Failed while the loading data for regulation" true
    let b := addCmd b ("cd " ++ inst.Root ++ "/django-DefectDojo && source ../bin/activate && python3 manage.py buildwatson")
      "Failed while the running buildwatson" true
    let b := addCmd b ("cd " ++ inst.Root ++ "/django-DefectDojo && source ../bin/activate && python3 manage.py installwatson")
      "Failed while the running installwatson" true
    let b := addCmd b ("cd " ++ inst.Root ++ "/django-DefectDojo/components && yarn")
      "Failed while the running yarn" true
    let b := addCmd b ("cd " ++ inst.Root ++ "/django-DefectDojo/ && source ../bin/activate && python3 manage.py collectstatic --noinput")
      "Failed while the running collectstatic" true
    let b := addCmd b ("chown -R " ++ inst.OS.User ++ "." ++ inst.OS.Group ++ " " ++ inst.Root)
      "Unable to change ownership of the DefectDojo directory" true
    (acts, b)
  else (acts, b)

/-! ## Supported platform ids -/

/-- The four Ubuntu platform ids. -/
def ubuntuIds : List String := ["ubuntu:18.04", "ubuntu:20.04", "ubuntu:20.10", "ubuntu:21.04"]

/-- The supported set of the bootstrap and PostgreSQL-server phases. -/
def debianUbuntuIds : List String := "debian:10" :: ubuntuIds

/-- The three sequences of a bundle have one common length, which is `n`. -/
def osCmds.hasLength (b : osCmds) (n : Nat) : Prop :=
  b.cmds.length = n ∧ b.errmsg.length = n ∧ b.hard.length = n

instance (b : osCmds) (n : Nat) : Decidable (b.hasLength n) := by
  unfold osCmds.hasLength; infer_instance

/-! ## The app-setup command list in the words of the specification -/

/-- A command that runs `tail` after `cd {Root}/django-DefectDojo && source ../bin/activate`. -/
def djangoCmd (inst : InstallConfig) (tail : String) : String :=
  "cd " ++ inst.Root ++ "/django-DefectDojo && source ../bin/activate && " ++ tail

/-- A command that runs `python3 manage.py sub` in the activated environment. -/
def manageCmd (inst : InstallConfig) (sub : String) : String :=
  djangoCmd inst ("python3 manage.py " ++ sub)

/-- The fixtures of the specification, in its order. -/
def fixtureNames : List String :=
  ["product_type", "test_type", "development_environment", "system_settings", "benchmark_type",
   "benchmark_category", "benchmark_requirement", "language_type", "objects_review", "regulation"]

/-- The superuser email of the specification: the default address when the
configured one is the empty string, the configured one otherwise. -/
def adminEmailOf (inst : InstallConfig) : String :=
  if inst.Admin.Email = "" then "default.user@defectdojo.org" else inst.Admin.Email

/-- The `createsuperuser` command of the specification. -/
def createSuperuserCmd (inst : InstallConfig) : String :=
  manageCmd inst ("createsuperuser --noinput --username=\"" ++ inst.Admin.User ++
    "\" --email=\"" ++ adminEmailOf inst ++ "\"")

/-- The expect-helper command of the specification, with the escaped password. -/
def expectCmd (esc : String → String) (inst : InstallConfig) : String :=
  djangoCmd inst (inst.Root ++ "/django-DefectDojo/setup-superuser.expect " ++ inst.Admin.User ++
    " \"" ++ esc inst.Admin.Pass ++ "\"")

/-- The recursive chown of the deployment root to `{OS.User}.{OS.Group}`. -/
def chownCmd (inst : InstallConfig) : String :=
  "chown -R " ++ inst.OS.User ++ "." ++ inst.OS.Group ++ " " ++ inst.Root

/-- The command list of the app-setup phase as the specification words it:
makemigrations, migrate, createsuperuser, the expect helper, `loaddata role` when
the version gate passes, the ten fixtures, buildwatson, installwatson, yarn,
collectstatic, chown. -/
def setupCommands (esc : String → String) (inst : InstallConfig) : List String :=
  [manageCmd inst "makemigrations dojo", manageCmd inst "migrate", createSuperuserCmd inst,
    expectCmd esc inst]
  ++ (if onlyAfter inst.Version 2 0 0 then [manageCmd inst "loaddata role"] else [])
  ++ fixtureNames.map (fun f => manageCmd inst ("loaddata " ++ f))
  ++ [manageCmd inst "buildwatson", manageCmd inst "installwatson",
      "cd " ++ inst.Root ++ "/django-DefectDojo/components && yarn",
      "cd " ++ inst.Root ++ "/django-DefectDojo/ && source ../bin/activate && python3 manage.py collectstatic --noinput",
      chownCmd inst]

/-! ## Decimal numerals, as the claims about `onlyAfter` read them -/

/-- The number a string of decimal digits denotes in positional notation, the
most significant digit first. -/
def numeralValue : List Char → Nat
  | [] => 0
  | c :: cs => (c.toNat - 48) * 10 ^ cs.length + numeralValue cs

/-- The integer a decimal literal denotes: an optional sign `-` or `+` followed
by one or more decimal digits; `none` for any other string. -/
def decimalInt (s : String) : Option Int :=
  match s.data with
  | [] => none
  | c :: cs =>
    if c = '-' then
      if cs ≠ [] ∧ cs.all Char.isDigit then some (-(numeralValue cs : Int)) else none
    else if c = '+' then
      if cs ≠ [] ∧ cs.all Char.isDigit then some (numeralValue cs : Int) else none
    else if (c :: cs).all Char.isDigit then some (numeralValue (c :: cs) : Int)
    else none

/-- The least value of a 64-bit Go `int`. -/
def minInt : Int := -(2 ^ 63)

/-- The greatest value of a 64-bit Go `int`. -/
def maxInt : Int := 2 ^ 63 - 1

/-- An integer brought into the range of `int`: values below `minInt` become
`minInt`, values above `maxInt` become `maxInt`. -/
def clampInt (a : Int) : Int := max minInt (min a maxInt)

/-- The order of version numbers: by major, then minor, then patch. -/
def versionGE (a b c : Int) (major minor patch : Int) : Prop :=
  a > major ∨ (a = major ∧ (b > minor ∨ (b = minor ∧ c ≥ patch)))

instance (a b c major minor patch : Int) : Decidable (versionGE a b c major minor patch) := by
  unfold versionGE; infer_instance

/-! ## The default-credentials probe for MySQL -/

/-- Whether the characters `p` stand at the start of `l`. -/
def startsWithChars : List Char → List Char → Bool
  | [], _ => true
  | _ :: _, [] => false
  | a :: p, b :: l => a = b && startsWithChars p l

/-- Whether the characters `p` occur in `l` as one contiguous run. -/
def containsChars (p : List Char) : List Char → Bool
  | [] => startsWithChars p []
  | c :: cs => startsWithChars p (c :: cs) || containsChars p cs

/-- Go `strings.Contains(s, substr)`. -/
def stringsContains (s : String) (substr : String) : Bool :=
  containsChars substr.data s.data

/-- Whether `s` begins with `pre` (Go `strings.HasPrefix`). -/
def stringsStartsWith (s : String) (pre : String) : Bool :=
  startsWithChars pre.data s.data

/-- Drop every leading occurrence of the character `c`. -/
def trimLeftChars (c : Char) : List Char → List Char
  | [] => []
  | x :: xs => if x = c then trimLeftChars c xs else x :: xs

/-- Go `strings.Trim(s, cutset)` for a cutset of one ASCII character, which is
what the source passes (`" "`): the trailing, then the leading occurrences of
that character are dropped. -/
def stringsTrim (s : String) (cut : Char) : String :=
  String.mk (trimLeftChars cut (trimLeftChars cut s.data.reverse).reverse)

/-- The credential map, a Go `map[string]string`: the value stored under a key,
if any. -/
abbrev Creds := String → Option String

/-- The Go assignment `c[k] = v`. -/
def setKey (c : Creds) (k : String) (v : String) : Creds :=
  fun x => if x = k then some v else c x

/-- The error state of the `bufio.Scanner` over the credentials file: no error;
a read error met inside the last line, which the scanner still delivers; or an
error met after the last delivered line (a read error, or a line beyond the
token limit). -/
inductive ScanErr where
  | noErr
  | withLastLine
  | afterLastLine
  deriving DecidableEq, Repr

/-- The credentials file as the scanner delivers it: its lines in order, and the
error state the scanner ends in. -/
structure ScannedFile where
  lines : List String
  err : ScanErr
  deriving DecidableEq, Repr

/-- The scan loop of `ubuntuDefaultMySQL` and the check of `scanner.Err()` that
follows it. A line is used when it contains `password` and splits at `=` into
more than one piece; the loop then stops. The result is `none` when the process
exits because the scanner has an error. -/
def scanPassword (c : Creds) (err : ScanErr) : List String → Option Creds
  | [] => if err = ScanErr.noErr then some c else none
  | line :: rest =>
    if stringsContains line "password" then
      match stringsSplit line '=' with
      | _ :: l1 :: _ =>
        if rest = [] ∧ err = ScanErr.withLastLine then none
        else some (setKey c "pass" (stringsTrim l1 ' '))
      | _ => scanPassword c err rest
    else scanPassword c err rest

/-- The function `ubuntuDefaultMySQL`. The file is `none` when it cannot be
opened; the result is `none` when the process exits. -/
def ubuntuDefaultMySQL (file : Option ScannedFile) (c : Creds) : Option Creds :=
  let c := setKey c "user" "debian-sys-maint"
  let c := setKey c "pass" "FAIL"
  match file with
  | none => none
  | some f => scanPassword c f.err f.lines

/-- Whitespace in the sense of Go `unicode.IsSpace`, for the Latin-1 range. -/
def isSpaceChar (c : Char) : Bool :=
  c = ' ' || c = Char.ofNat 0x09 || c = Char.ofNat 0x0A || c = Char.ofNat 0x0D || c = Char.ofNat 0x0B
    || c = Char.ofNat 0x0C
    || c = Char.ofNat 0x85 || c = Char.ofNat 0xA0

/-- A string free of leading and trailing whitespace. -/
def noOuterWhitespace (s : String) : Bool :=
  (match s.data.head? with | some c => !isSpaceChar c | none => true) &&
  (match s.data.getLast? with | some c => !isSpaceChar c | none => true)

/-! ## Helper lemmas -/

theorem mem_ubuntuIds {id : String} :
    id ∈ ubuntuIds ↔
      (id = "ubuntu:18.04" ∨ id = "ubuntu:20.04" ∨ id = "ubuntu:20.10" ∨ id = "ubuntu:21.04") := by
  simp [ubuntuIds]

theorem mem_debianUbuntuIds {id : String} :
    id ∈ debianUbuntuIds ↔
      (id = "debian:10" ∨ id = "ubuntu:18.04" ∨ id = "ubuntu:20.04" ∨ id = "ubuntu:20.10"
        ∨ id = "ubuntu:21.04") := by
  simp [debianUbuntuIds, ubuntuIds]

theorem stringsToLower_of_mem {id : String} (h : id ∈ debianUbuntuIds) :
    stringsToLower id = id := by
  rcases mem_debianUbuntuIds.mp h with rfl | rfl | rfl | rfl | rfl <;> decide

theorem lower_mem_of_mem {id : String} (h : id ∈ debianUbuntuIds) :
    (stringsToLower id = "debian:10" ∨ stringsToLower id = "ubuntu:18.04"
      ∨ stringsToLower id = "ubuntu:20.04" ∨ stringsToLower id = "ubuntu:20.10"
      ∨ stringsToLower id = "ubuntu:21.04") := by
  rw [stringsToLower_of_mem h]; exact mem_debianUbuntuIds.mp h

theorem addCmd_cmds (b : osCmds) (c e : String) (h : Bool) :
    (addCmd b c e h).cmds = b.cmds ++ [c] := rfl

theorem addCmd_errmsg (b : osCmds) (c e : String) (h : Bool) :
    (addCmd b c e h).errmsg = b.errmsg ++ [e] := rfl

theorem addCmd_hard (b : osCmds) (c e : String) (h : Bool) :
    (addCmd b c e h).hard = b.hard ++ [h] := rfl

theorem addCmd_id (b : osCmds) (c e : String) (h : Bool) :
    (addCmd b c e h).id = b.id := rfl

theorem utf8ByteSize_go_eq_zero (l : List Char) : String.utf8ByteSize.go l = 0 ↔ l = [] := by
  cases l with
  | nil => simp [String.utf8ByteSize.go]
  | cons c cs =>
    have := c.utf8Size_pos
    constructor
    · intro e
      simp only [String.utf8ByteSize.go] at e
      omega
    · intro e
      cases e

theorem utf8ByteSize_pos_iff (s : String) : s.utf8ByteSize > 0 ↔ s ≠ "" := by
  obtain ⟨l⟩ := s
  have h := utf8ByteSize_go_eq_zero l
  have h2 : (String.mk l = "") ↔ l = [] := by
    constructor
    · intro e; exact congrArg String.data e
    · intro e; rw [e]
  simp only [String.utf8ByteSize, ne_eq, h2]
  constructor
  · intro hp e
    have := h.mpr e
    omega
  · intro hn
    have : String.utf8ByteSize.go l ≠ 0 := fun e => hn (h.mp e)
    omega

/-- The `adminEmail` computed by the source (by byte length) is the default
address exactly when the configured address is the empty string. -/
theorem adminEmail_eq (inst : InstallConfig) :
    (if inst.Admin.Email.utf8ByteSize > 0 then inst.Admin.Email
      else "default.user@defectdojo.org") = adminEmailOf inst := by
  unfold adminEmailOf
  by_cases h : inst.Admin.Email = ""
  · have : ¬ inst.Admin.Email.utf8ByteSize > 0 := by
      rw [utf8ByteSize_pos_iff]; simp [h]
    rw [if_neg this, if_pos h]
  · have : inst.Admin.Email.utf8ByteSize > 0 := (utf8ByteSize_pos_iff _).mpr h
    rw [if_pos this, if_neg h]

/-- On a matching id, the commands of the bundle that `ubuntuSetupDDjango`
returns are the old commands followed by `setupCommands`. -/
theorem setup_cmds (esc : String → String) (id : String) (inst : InstallConfig) (b : osCmds)
    (h : id ∈ ubuntuIds) :
    (ubuntuSetupDDjango esc id inst b).2.cmds = b.cmds ++ setupCommands esc inst := by
  unfold ubuntuSetupDDjango
  simp only [if_pos (mem_ubuntuIds.mp h), adminEmail_eq]
  cases hv : onlyAfter inst.Version 2 0 0 <;>
    simp [hv, addCmd, setupCommands, manageCmd, djangoCmd, createSuperuserCmd, expectCmd,
      chownCmd, fixtureNames, String.append_assoc] <;> rfl

/-- On a matching id, the hardness flags that `ubuntuSetupDDjango` appends are
all `true`, one per appended command. -/
theorem setup_hard (esc : String → String) (id : String) (inst : InstallConfig) (b : osCmds)
    (h : id ∈ ubuntuIds) :
    (ubuntuSetupDDjango esc id inst b).2.hard =
      b.hard ++ List.replicate (setupCommands esc inst).length true := by
  unfold ubuntuSetupDDjango
  simp only [if_pos (mem_ubuntuIds.mp h)]
  cases hv : onlyAfter inst.Version 2 0 0 <;>
    simp [hv, addCmd, setupCommands, fixtureNames, List.replicate]

/-- On a matching id, `ubuntuSetupDDjango` appends one error message per
appended command. -/
theorem setup_errmsg_length (esc : String → String) (id : String) (inst : InstallConfig)
    (b : osCmds) (h : id ∈ ubuntuIds) :
    (ubuntuSetupDDjango esc id inst b).2.errmsg.length =
      b.errmsg.length + (setupCommands esc inst).length := by
  unfold ubuntuSetupDDjango
  simp only [if_pos (mem_ubuntuIds.mp h)]
  cases hv : onlyAfter inst.Version 2 0 0 <;>
    simp [hv, addCmd, setupCommands, fixtureNames]

theorem setupCommands_length (esc : String → String) (inst : InstallConfig) :
    (setupCommands esc inst).length = if onlyAfter inst.Version 2 0 0 then 20 else 19 := by
  cases hv : onlyAfter inst.Version 2 0 0 <;> simp [hv, setupCommands, fixtureNames]

theorem splitChars_ne_nil (sep : Char) (l : List Char) : splitChars sep l ≠ [] := by
  cases l with
  | nil => simp [splitChars]
  | cons c cs =>
    unfold splitChars
    split
    · simp
    · split <;> simp

/-- Splitting yields one more piece than there are separators. -/
theorem splitChars_length (sep : Char) (l : List Char) :
    (splitChars sep l).length = l.count sep + 1 := by
  induction l with
  | nil => simp [splitChars]
  | cons c cs ih =>
    unfold splitChars
    by_cases hc : c = sep
    · subst hc
      simp [ih]
    · rw [if_neg hc]
      have hne := splitChars_ne_nil sep cs
      cases hs : splitChars sep cs with
      | nil => exact absurd hs hne
      | cons p ps =>
        rw [hs] at ih
        simp only [List.length_cons] at ih ⊢
        rw [List.count_cons_of_ne (fun e => hc e.symm)]
        exact ih

/-- A string that does not split into exactly three pieces is rejected. -/
theorem onlyAfter_of_length_ne (v : String) (major minor patch : Int)
    (h : (stringsSplit v '.').length ≠ 3) : onlyAfter v major minor patch = false := by
  unfold onlyAfter
  split
  · rename_i b0 b1 b2 heq
    rw [heq] at h
    simp at h
  · rfl

theorem isDigit_iff (c : Char) : c.isDigit = true ↔ ('0' ≤ c ∧ c ≤ '9') := by
  simp only [Char.isDigit, Bool.and_eq_true, decide_eq_true_eq]
  constructor
  · intro h; exact ⟨h.1, h.2⟩
  · intro h; exact ⟨h.1, h.2⟩

theorem digit_toNat (c : Char) (h : c.isDigit = true) : 48 ≤ c.toNat ∧ c.toNat ≤ 57 := by
  simp only [Char.isDigit, Bool.and_eq_true, decide_eq_true_eq] at h
  obtain ⟨h1, h2⟩ := h
  have h1' : (48 : UInt32).toNat ≤ c.val.toNat := h1
  have h2' : c.val.toNat ≤ (57 : UInt32).toNat := h2
  exact ⟨h1', h2'⟩

theorem numeralValue_lt (ds : List Char) (h : ∀ c ∈ ds, c.isDigit = true) :
    numeralValue ds < 10 ^ ds.length := by
  induction ds with
  | nil => simp [numeralValue]
  | cons c cs ih =>
    have hc := digit_toNat c (h c (List.mem_cons_self _ _))
    have ih' := ih (fun x hx => h x (List.mem_cons_of_mem _ hx))
    simp only [numeralValue, List.length_cons, pow_succ]
    have : (c.toNat - 48) * 10 ^ cs.length ≤ 9 * 10 ^ cs.length :=
      Nat.mul_le_mul_right _ (by omega)
    omega

/-- The fast-path loop of `Atoi` computes the positional value. -/
theorem atoiFast_digits (ds : List Char) (h : ∀ c ∈ ds, c.isDigit = true) (n : Nat) :
    atoiFast n ds = some (n * 10 ^ ds.length + numeralValue ds) := by
  induction ds generalizing n with
  | nil => simp [atoiFast, numeralValue]
  | cons c cs ih =>
    have hc := (isDigit_iff c).mp (h c (List.mem_cons_self _ _))
    unfold atoiFast
    rw [if_pos hc, ih (fun x hx => h x (List.mem_cons_of_mem _ hx))]
    simp only [numeralValue, List.length_cons, pow_succ]
    congr 1
    have : ('0' : Char).toNat = 48 := rfl
    rw [this]
    ring

/-- The loop of `ParseUint` computes the positional value, or reports a range
error with the greatest `uint64` when that value does not fit. -/
theorem parseUintLoop_digits (ds : List Char) (h : ∀ c ∈ ds, c.isDigit = true) (n : Nat)
    (hn : n ≤ maxUint64) :
    parseUintLoop n ds =
      if n * 10 ^ ds.length + numeralValue ds ≤ maxUint64
      then (n * 10 ^ ds.length + numeralValue ds, none)
      else (maxUint64, some NumError.errRange) := by
  induction ds generalizing n with
  | nil =>
    simp only [parseUintLoop, numeralValue, List.length_nil, pow_zero, Nat.mul_one, Nat.add_zero]
    rw [if_pos hn]
  | cons c cs ih =>
    have hc := (isDigit_iff c).mp (h c (List.mem_cons_self _ _))
    have hd := digit_toNat c (h c (List.mem_cons_self _ _))
    have hcs := fun x hx => h x (List.mem_cons_of_mem c hx)
    have h0 : ('0' : Char).toNat = 48 := rfl
    have hP : 1 ≤ 10 ^ cs.length := Nat.one_le_pow _ _ (by decide)
    have htot : n * 10 ^ (c :: cs).length + numeralValue (c :: cs)
        = (n * 10 + (c.toNat - 48)) * 10 ^ cs.length + numeralValue cs := by
      simp only [numeralValue, List.length_cons, pow_succ]
      ring
    have hge : n * 10 + (c.toNat - 48) ≤ (n * 10 + (c.toNat - 48)) * 10 ^ cs.length :=
      Nat.le_mul_of_pos_right _ hP
    rw [htot]
    unfold parseUintLoop
    rw [if_pos hc]
    simp only [h0, maxUint64] at hn ⊢
    by_cases h1 : n ≥ (2 ^ 64 - 1) / 10 + 1
    · rw [if_pos h1, if_neg]
      omega
    · rw [if_neg h1]
      by_cases h2 : n * 10 + (c.toNat - 48) < 2 ^ 64
      · have hmod : (n * 10 + (c.toNat - 48)) % 2 ^ 64 = n * 10 + (c.toNat - 48) :=
          Nat.mod_eq_of_lt h2
        rw [hmod, if_neg (by omega)]
        have := ih hcs (n * 10 + (c.toNat - 48)) (by simp only [maxUint64]; omega)
        simp only [maxUint64] at this
        exact this
      · have hmod : (n * 10 + (c.toNat - 48)) % 2 ^ 64 = n * 10 + (c.toNat - 48) - 2 ^ 64 := by
          rw [Nat.mod_eq_sub_mod (by omega)]
          exact Nat.mod_eq_of_lt (by omega)
        rw [hmod, if_pos (by omega), if_neg]
        omega

theorem utf8Size_ascii (c : Char) (h : c.toNat ≤ 127) : c.utf8Size = 1 := by
  have h' : c.val ≤ 127 := h
  simp [Char.utf8Size, h']

theorem utf8ByteSize_go_ascii (l : List Char) (h : ∀ c ∈ l, c.toNat ≤ 127) :
    String.utf8ByteSize.go l = l.length := by
  induction l with
  | nil => rfl
  | cons c cs ih =>
    simp only [String.utf8ByteSize.go, List.length_cons]
    rw [ih (fun x hx => h x (List.mem_cons_of_mem _ hx)),
      utf8Size_ascii c (h c (List.mem_cons_self _ _))]

theorem digit_ascii (c : Char) (h : c.isDigit = true) : c.toNat ≤ 127 := by
  have := digit_toNat c h
  omega

theorem ParseUint_digits (ds : List Char) (hne : ds ≠ []) (h : ∀ c ∈ ds, c.isDigit = true) :
    ParseUint ds =
      if numeralValue ds ≤ maxUint64 then (numeralValue ds, none)
      else (maxUint64, some NumError.errRange) := by
  unfold ParseUint
  rw [if_neg hne, parseUintLoop_digits ds h 0 (by decide)]
  simp

/-- The function `ParseInt` on a sign (`neg` for `-`) and digits: the denoted integer,
brought into the range of `int`. -/
theorem ParseInt_clamp (un : Nat) (e : Option NumError) (v : Nat)
    (h : (un, e) = if v ≤ maxUint64 then (v, none) else (maxUint64, some NumError.errRange))
    (neg : Bool) :
    (match (un, e) with
      | (_, some NumError.errSyn) => ((0 : Int), some NumError.errSyn)
      | (un, _) =>
        let cutoff : Nat := 2 ^ (intSize - 1)
        if neg = false ∧ un ≥ cutoff then ((cutoff : Int) - 1, some NumError.errRange)
        else if neg = true ∧ un > cutoff then (-(cutoff : Int), some NumError.errRange)
        else (if neg then -(un : Int) else (un : Int), none)).1
      = clampInt (if neg then -(v : Int) else (v : Int)) := by
  have e63 : (2 : Nat) ^ (intSize - 1) = 9223372036854775808 := by decide
  by_cases hv : v ≤ maxUint64
  · rw [if_pos hv] at h
    obtain ⟨rfl, rfl⟩ := Prod.mk.inj h
    simp only [clampInt, minInt, maxInt, maxUint64, e63] at hv ⊢
    cases neg
    · by_cases h1 : un ≥ 9223372036854775808
      · rw [if_pos ⟨rfl, h1⟩]
        simp only [Bool.false_eq_true, if_false]
        omega
      · rw [if_neg (fun hh => h1 hh.2), if_neg (fun hh => Bool.false_ne_true hh.1)]
        simp only [Bool.false_eq_true, if_false]
        omega
    · by_cases h1 : un > 9223372036854775808
      · rw [if_neg (fun hh => Bool.false_ne_true hh.1.symm), if_pos ⟨rfl, h1⟩]
        simp only [if_true]
        omega
      · rw [if_neg (fun hh => Bool.false_ne_true hh.1.symm), if_neg (fun hh => h1 hh.2)]
        simp only [if_true]
        omega
  · rw [if_neg hv] at h
    obtain ⟨rfl, rfl⟩ := Prod.mk.inj h
    simp only [clampInt, minInt, maxInt, maxUint64, e63] at hv ⊢
    cases neg
    · rw [if_pos ⟨rfl, by omega⟩]
      simp only [Bool.false_eq_true, if_false]
      omega
    · rw [if_neg (fun hh => Bool.false_ne_true hh.1.symm), if_pos ⟨rfl, by omega⟩]
      simp only [if_true]
      omega

/-- The function `ParseInt` on an optional sign followed by digits returns the denoted
integer, brought into the range of `int`. -/
theorem ParseInt_signed (c : Char) (cs ds : List Char)
    (hds : ds = if c = '+' ∨ c = '-' then cs else c :: cs)
    (hne : ds ≠ []) (hd : ∀ x ∈ ds, x.isDigit = true) :
    (ParseInt (c :: cs)).1 =
      clampInt (if c = '-' then -(numeralValue ds : Int) else (numeralValue ds : Int)) := by
  unfold ParseInt
  simp only [← hds]
  have h := ParseInt_clamp (ParseUint ds).1 (ParseUint ds).2 (numeralValue ds)
    (by rw [← ParseUint_digits ds hne hd]) (decide (c = '-'))
  have e : (if decide (c = '-') = true then -(numeralValue ds : Int) else (numeralValue ds : Int))
      = (if c = '-' then -(numeralValue ds : Int) else (numeralValue ds : Int)) := by
    by_cases hc : c = '-' <;> simp [hc]
  rw [e] at h
  exact h

/-- The function `Atoi` on a decimal literal returns the integer the literal denotes, brought
into the range of `int`. -/
theorem Atoi_decimal (s : String) (a : Int) (h : decimalInt s = some a) :
    (Atoi s).1 = clampInt a := by
  obtain ⟨l⟩ := s
  cases l with
  | nil => simp [decimalInt] at h
  | cons c cs =>
    -- the digits, and what the literal denotes
    have key : ∃ ds : List Char, ds = (if c = '-' ∨ c = '+' then cs else c :: cs) ∧ ds ≠ [] ∧
        (∀ x ∈ ds, x.isDigit = true) ∧
        a = (if c = '-' then -(numeralValue ds : Int) else (numeralValue ds : Int)) ∧
        c.toNat ≤ 127 := by
      simp only [decimalInt] at h
      by_cases h1 : c = '-'
      · rw [if_pos h1] at h
        split at h
        · rename_i hh
          refine ⟨cs, by simp [h1], hh.1, ?_, ?_, by rw [h1]; decide⟩
          · intro x hx; exact List.all_eq_true.mp hh.2 x hx
          · rw [if_pos h1]; exact (Option.some.inj h).symm
        · cases h
      · rw [if_neg h1] at h
        by_cases h2 : c = '+'
        · rw [if_pos h2] at h
          split at h
          · rename_i hh
            refine ⟨cs, by simp [h2], hh.1, ?_, ?_, by rw [h2]; decide⟩
            · intro x hx; exact List.all_eq_true.mp hh.2 x hx
            · rw [if_neg h1]; exact (Option.some.inj h).symm
          · cases h
        · rw [if_neg h2] at h
          split at h
          · rename_i hh
            have hall : ∀ x ∈ c :: cs, x.isDigit = true :=
              fun x hx => List.all_eq_true.mp hh x hx
            refine ⟨c :: cs, by simp [h1, h2], by simp, hall, ?_, ?_⟩
            · rw [if_neg h1]; exact (Option.some.inj h).symm
            · exact digit_ascii c (hall c (List.mem_cons_self _ _))
          · cases h
    obtain ⟨ds, hds, hne, hd, ha, hc⟩ := key
    have hsub : ∀ x ∈ cs, x.toNat ≤ 127 := by
      intro x hx
      by_cases hs : c = '-' ∨ c = '+'
      · rw [if_pos hs] at hds
        exact digit_ascii x (hd x (hds ▸ hx))
      · rw [if_neg hs] at hds
        exact digit_ascii x (hd x (hds ▸ List.mem_cons_of_mem _ hx))
    have hlen : (String.mk (c :: cs)).utf8ByteSize = (c :: cs).length := by
      simp only [String.utf8ByteSize]
      apply utf8ByteSize_go_ascii
      intro x hx
      rcases List.mem_cons.mp hx with rfl | hx
      · exact hc
      · exact hsub x hx
    unfold Atoi
    simp only [hlen]
    by_cases hfast : 0 < (c :: cs).length ∧ (c :: cs).length < 19
    · rw [if_pos hfast]
      simp only [← hds]
      have hl : ¬ ds.length < 1 := by
        cases ds with
        | nil => exact absurd rfl hne
        | cons _ _ => simp
      rw [if_neg hl, atoiFast_digits ds hd 0]
      simp only [Nat.zero_mul, Nat.zero_add]
      rw [ha]
      -- the value has at most 18 digits, so it is within range
      have hv := numeralValue_lt ds hd
      have hdl : ds.length ≤ 18 := by
        have : ds.length ≤ (c :: cs).length := by
          rw [hds]; split <;> simp
        omega
      have hp : 10 ^ ds.length ≤ 10 ^ 18 := Nat.pow_le_pow_right (by decide) hdl
      have hb : numeralValue ds < 10 ^ 18 := lt_of_lt_of_le hv hp
      simp only [clampInt, minInt, maxInt]
      split <;> omega
    · rw [if_neg hfast]
      have hds' : ds = if c = '+' ∨ c = '-' then cs else c :: cs := by
        rw [hds]
        by_cases hs : c = '-' ∨ c = '+'
        · rw [if_pos hs, if_pos hs.symm]
        · rw [if_neg hs, if_neg (fun hh => hs hh.symm)]
      rw [ha]
      exact ParseInt_signed c cs ds hds' hne hd

theorem splitChars_of_not_mem (sep : Char) (l : List Char) (h : sep ∉ l) :
    splitChars sep l = [l] := by
  induction l with
  | nil => rfl
  | cons c cs ih =>
    have hc : c ≠ sep := fun e => h (e ▸ List.mem_cons_self _ _)
    have hcs : sep ∉ cs := fun hm => h (List.mem_cons_of_mem _ hm)
    unfold splitChars
    rw [if_neg hc, ih hcs]

theorem splitChars_append (sep : Char) (xs ys : List Char) (h : sep ∉ xs) :
    splitChars sep (xs ++ sep :: ys) = xs :: splitChars sep ys := by
  induction xs with
  | nil => simp [splitChars]
  | cons c cs ih =>
    have hc : c ≠ sep := fun e => h (e ▸ List.mem_cons_self _ _)
    have hcs : sep ∉ cs := fun hm => h (List.mem_cons_of_mem _ hm)
    simp only [List.cons_append]
    rw [splitChars, if_neg hc, ih hcs]

/-- A decimal literal holds no dot. -/
theorem decimalInt_no_dot (s : String) (a : Int) (h : decimalInt s = some a) :
    '.' ∉ s.data := by
  obtain ⟨l⟩ := s
  cases l with
  | nil => simp
  | cons c cs =>
    have hdig : ∀ l : List Char, l.all Char.isDigit = true → '.' ∉ l := by
      intro l hl hm
      have := List.all_eq_true.mp hl '.' hm
      exact absurd this (by decide)
    simp only [decimalInt] at h
    intro hm
    by_cases h1 : c = '-'
    · rw [if_pos h1] at h
      split at h
      · rename_i hh
        rcases List.mem_cons.mp hm with e | hm'
        · rw [h1] at e; exact absurd e (by decide)
        · exact hdig cs hh.2 hm'
      · cases h
    · rw [if_neg h1] at h
      by_cases h2 : c = '+'
      · rw [if_pos h2] at h
        split at h
        · rename_i hh
          rcases List.mem_cons.mp hm with e | hm'
          · rw [h2] at e; exact absurd e (by decide)
          · exact hdig cs hh.2 hm'
        · cases h
      · rw [if_neg h2] at h
        split at h
        · rename_i hh
          exact hdig (c :: cs) hh hm
        · cases h

/-- Three dot-free strings joined by dots split back into the three strings. -/
theorem stringsSplit_three (sa sb sc : String) (ha : '.' ∉ sa.data) (hb : '.' ∉ sb.data)
    (hc : '.' ∉ sc.data) :
    stringsSplit (sa ++ "." ++ sb ++ "." ++ sc) '.' = [sa, sb, sc] := by
  have hd : (sa ++ "." ++ sb ++ "." ++ sc).data
      = sa.data ++ '.' :: (sb.data ++ '.' :: sc.data) := by
    simp only [String.data_append]
    simp
  unfold stringsSplit
  rw [hd, splitChars_append _ _ _ ha, splitChars_append _ _ _ hb, splitChars_of_not_mem _ _ hc]
  rfl

/-- On a version made of three decimal literals `onlyAfter` compares, component
by component, the denoted integers brought into the range of `int`. -/
theorem onlyAfter_decimal (sa sb sc : String) (a b c major minor patch : Int)
    (ha : decimalInt sa = some a) (hb : decimalInt sb = some b) (hc : decimalInt sc = some c) :
    (onlyAfter (sa ++ "." ++ sb ++ "." ++ sc) major minor patch = true ↔
      (major ≤ clampInt a ∧ minor ≤ clampInt b ∧ patch ≤ clampInt c)) := by
  unfold onlyAfter
  rw [stringsSplit_three sa sb sc (decimalInt_no_dot sa a ha) (decimalInt_no_dot sb b hb)
    (decimalInt_no_dot sc c hc)]
  simp only [Atoi_decimal sa a ha, Atoi_decimal sb b hb, Atoi_decimal sc c hc]
  by_cases h1 : clampInt a < major
  · rw [if_pos h1]
    constructor
    · intro h; cases h
    · intro h; omega
  · rw [if_neg h1]
    by_cases h2 : clampInt b < minor
    · rw [if_pos h2]
      constructor
      · intro h; cases h
      · intro h; omega
    · rw [if_neg h2]
      by_cases h3 : clampInt c < patch
      · rw [if_pos h3]
        constructor
        · intro h; cases h
        · intro h; omega
      · rw [if_neg h3]
        constructor
        · intro _; omega
        · intro _; rfl

theorem str_append_left_cancel (s t u : String) : s ++ t = s ++ u ↔ t = u := by
  constructor
  · intro h
    have hd := congrArg String.data h
    simp only [String.data_append] at hd
    exact String.ext (List.append_cancel_left hd)
  · intro h; rw [h]

theorem djangoCmd_inj (inst : InstallConfig) (x y : String) :
    djangoCmd inst x = djangoCmd inst y ↔ x = y := by
  unfold djangoCmd
  exact str_append_left_cancel _ x y

theorem manageCmd_inj (inst : InstallConfig) (x y : String) :
    manageCmd inst x = manageCmd inst y ↔ x = y := by
  unfold manageCmd
  rw [djangoCmd_inj, str_append_left_cancel]

theorem role_ne_createSuperuser (inst : InstallConfig) :
    createSuperuserCmd inst ≠ manageCmd inst "loaddata role" := by
  unfold createSuperuserCmd
  rw [Ne, manageCmd_inj]
  intro e
  have h2 := congrArg (fun s : String => s.data.head?) e
  have h3 : some 'c' = some 'l' := h2
  exact absurd h3 (by decide)

theorem role_ne_expect (esc : String → String) (inst : InstallConfig) :
    expectCmd esc inst ≠ manageCmd inst "loaddata role" := by
  unfold expectCmd manageCmd
  rw [Ne, djangoCmd_inj]
  intro e
  have h2 := congrArg (fun s : String => s.data.getLast?) e
  simp only [String.data_append] at h2
  rw [List.getLast?_append] at h2
  have h3 : some (Char.ofNat 34) = some 'e' := h2
  exact absurd h3 (by decide)

theorem role_ne_yarn (inst : InstallConfig) :
    "cd " ++ inst.Root ++ "/django-DefectDojo/components && yarn"
      ≠ manageCmd inst "loaddata role" := by
  unfold manageCmd djangoCmd
  rw [Ne, String.append_assoc ("cd " ++ inst.Root), str_append_left_cancel]
  decide

theorem role_ne_collectstatic (inst : InstallConfig) :
    "cd " ++ inst.Root ++ "/django-DefectDojo/ && source ../bin/activate && python3 manage.py collectstatic --noinput"
      ≠ manageCmd inst "loaddata role" := by
  unfold manageCmd djangoCmd
  rw [Ne, String.append_assoc ("cd " ++ inst.Root), str_append_left_cancel]
  decide

theorem role_ne_chown (inst : InstallConfig) :
    chownCmd inst ≠ manageCmd inst "loaddata role" := by
  unfold chownCmd manageCmd djangoCmd
  intro e
  have h2 := congrArg (fun s : String => s.data[1]?) e
  have h3 : some 'h' = some 'd' := h2
  exact absurd h3 (by decide)

/-- For a version of three non-negative decimal integers the gate of the
`loaddata role` command is the order of version numbers against 2.0.0. -/
theorem gate_iff_versionGE (sa sb sc : String) (a b c : Int)
    (ha : decimalInt sa = some a) (hb : decimalInt sb = some b) (hc : decimalInt sc = some c)
    (a0 : 0 ≤ a) (b0 : 0 ≤ b) (c0 : 0 ≤ c) :
    onlyAfter (sa ++ "." ++ sb ++ "." ++ sc) 2 0 0 = true ↔ versionGE a b c 2 0 0 := by
  rw [onlyAfter_decimal sa sb sc a b c 2 0 0 ha hb hc]
  simp only [clampInt, minInt, maxInt, versionGE]
  omega

theorem startsWithChars_iff (p l : List Char) : startsWithChars p l = true ↔ p <+: l := by
  induction p generalizing l with
  | nil => simp [startsWithChars]
  | cons a p ih =>
    cases l with
    | nil => simp [startsWithChars]
    | cons b l =>
      simp only [startsWithChars, Bool.and_eq_true, decide_eq_true_eq, List.cons_prefix_cons, ih]

theorem containsChars_iff (p l : List Char) : containsChars p l = true ↔ p <:+: l := by
  induction l with
  | nil =>
    simp only [containsChars, startsWithChars_iff, List.prefix_nil, List.infix_nil]
  | cons c cs ih =>
    simp only [containsChars, Bool.or_eq_true, startsWithChars_iff, ih, List.infix_cons_iff]

/-- A run of characters that does not hold the character `c` and occurs in
`xs ++ c :: ys` occurs in `xs` or in `ys`. -/
theorem infix_of_sep (p xs ys : List Char) (c : Char) (hc : c ∉ p)
    (h : p <:+: xs ++ c :: ys) : p <:+: xs ∨ p <:+: ys := by
  obtain ⟨s, t, h⟩ := h
  rcases List.append_eq_append_iff.mp h with ⟨a, h1, _⟩ | ⟨d, h1, h2⟩
  · left
    exact ⟨s, a, h1.symm⟩
  · cases d with
    | nil =>
      left
      rw [List.append_nil] at h1
      exact ⟨s, [], by rw [List.append_nil]; exact h1⟩
    | cons d0 d =>
      simp only [List.cons_append, List.cons.injEq] at h2
      obtain ⟨hd, hys⟩ := h2
      subst hd
      rcases List.append_eq_append_iff.mp h1 with ⟨a, _, h4⟩ | ⟨e, h3, h4⟩
      · exfalso
        apply hc
        rw [h4]
        simp
      · cases e with
        | nil =>
          exfalso
          apply hc
          rw [List.nil_append] at h4
          rw [← h4]
          simp
        | cons e0 e =>
          simp only [List.cons_append, List.cons.injEq] at h4
          right
          refine ⟨e, t, ?_⟩
          rw [hys, h4.2]

theorem containsChars_sep_false (p xs ys : List Char) (c : Char) (hc : c ∉ p)
    (hx : containsChars p xs = false) (hy : containsChars p ys = false) :
    containsChars p (xs ++ c :: ys) = false := by
  rw [Bool.eq_false_iff] at hx hy ⊢
  intro h
  rcases infix_of_sep p xs ys c hc ((containsChars_iff _ _).mp h) with h1 | h1
  · exact hx ((containsChars_iff _ _).mpr h1)
  · exact hy ((containsChars_iff _ _).mpr h1)

/-- A text put between two literal pieces, with a blank on either side, holds
`apt-get` only when one of the three parts does. -/
theorem no_apt_get_between (a y b : List Char)
    (ha : containsChars "apt-get".data a = false) (hy : containsChars "apt-get".data y = false)
    (hb : containsChars "apt-get".data b = false) :
    containsChars "apt-get".data (a ++ ' ' :: (y ++ ' ' :: b)) = false :=
  containsChars_sep_false _ _ _ _ (by decide) ha
    (containsChars_sep_false _ _ _ _ (by decide) hy hb)

/-- The commands of the bootstrap bundle that hold `apt-get` begin with the
noninteractive setting, when the three URL constants do not hold `apt-get`. -/
theorem bootstrap_apt_get (YarnGPG YarnRepo NodeURL : String) (id : String) (b : osCmds)
    (hY : stringsContains YarnGPG "apt-get" = false)
    (hR : stringsContains YarnRepo "apt-get" = false)
    (hN : stringsContains NodeURL "apt-get" = false)
    (h : id ∈ debianUbuntuIds) :
    ∀ c ∈ (ubuntuInitOSInst YarnGPG YarnRepo NodeURL id b).cmds,
      stringsContains c "apt-get" = true →
      stringsStartsWith c "DEBIAN_FRONTEND=noninteractive apt-get" = true := by
  intro c hc hcon
  simp only [ubuntuInitOSInst, if_pos (lower_mem_of_mem h), List.mem_cons, List.mem_singleton,
    List.not_mem_nil, or_false] at hc
  rcases hc with rfl | rfl | rfl | rfl | rfl | rfl
  · exfalso
    have hf : stringsContains ("curl -sS " ++ YarnGPG ++ " | apt-key add -") "apt-get" = false :=
      no_apt_get_between "curl -sS".data YarnGPG.data "| apt-key add -".data (by decide) hY
        (by decide)
    rw [hf] at hcon
    cases hcon
  · exfalso
    have hf : stringsContains ("echo -n " ++ YarnRepo ++ " > /etc/apt/sources.list.d/yarn.list")
        "apt-get" = false :=
      no_apt_get_between "echo -n".data YarnRepo.data "> /etc/apt/sources.list.d/yarn.list".data
        (by decide) hR (by decide)
    rw [hf] at hcon
    cases hcon
  · decide
  · decide
  · exfalso
    have hf : stringsContains ("curl -sL " ++ NodeURL ++ " | bash - ") "apt-get" = false :=
      no_apt_get_between "curl -sL".data NodeURL.data "| bash - ".data (by decide) hN (by decide)
    rw [hf] at hcon
    cases hcon
  · decide

theorem trimLeftChars_spec (c : Char) (l : List Char) :
    ∃ n, l = List.replicate n c ++ trimLeftChars c l ∧ (trimLeftChars c l).head? ≠ some c := by
  induction l with
  | nil => exact ⟨0, rfl, by simp [trimLeftChars]⟩
  | cons x xs ih =>
    by_cases hx : x = c
    · obtain ⟨n, h1, h2⟩ := ih
      refine ⟨n + 1, ?_, ?_⟩
      · simp only [trimLeftChars, if_pos hx, List.replicate_succ, List.cons_append]
        rw [← h1, hx]
      · simp only [trimLeftChars, if_pos hx]
        exact h2
    · refine ⟨0, ?_, ?_⟩
      · simp [trimLeftChars, hx]
      · simp [trimLeftChars, hx]

/-- What `strings.Trim` with a cutset of one character returns: the text between
the leading and the trailing run of that character. -/
theorem trim_spec (c : Char) (l : List Char) :
    ∃ n m, l = List.replicate n c ++ trimLeftChars c (trimLeftChars c l.reverse).reverse
        ++ List.replicate m c ∧
      (trimLeftChars c (trimLeftChars c l.reverse).reverse).head? ≠ some c ∧
      (trimLeftChars c (trimLeftChars c l.reverse).reverse).getLast? ≠ some c := by
  obtain ⟨m, hm, hlast⟩ := trimLeftChars_spec c l.reverse
  obtain ⟨n, hn, hhead⟩ := trimLeftChars_spec c (trimLeftChars c l.reverse).reverse
  have hl : l = (trimLeftChars c l.reverse).reverse ++ List.replicate m c := by
    have := congrArg List.reverse hm
    simpa using this
  refine ⟨n, m, ?_, hhead, ?_⟩
  · rw [← hn]; exact hl
  · -- the result is a tail of the right-trimmed text, so it ends as that text does
    intro hp
    have hr : (trimLeftChars c l.reverse).reverse.getLast? = some c := by
      rw [hn, List.getLast?_append, hp]
      rfl
    rw [List.getLast?_reverse] at hr
    exact hlast hr

/-- Trimming blanks off a text that begins with one more blank. -/
theorem trim_spec_after_blank (c : Char) (X : List Char) :
    ∃ n m, X = List.replicate n c ++ trimLeftChars c (trimLeftChars c (c :: X).reverse).reverse
        ++ List.replicate m c ∧
      (trimLeftChars c (trimLeftChars c (c :: X).reverse).reverse).head? ≠ some c ∧
      (trimLeftChars c (trimLeftChars c (c :: X).reverse).reverse).getLast? ≠ some c := by
  obtain ⟨n, m, h, hh, hl⟩ := trim_spec c (c :: X)
  generalize trimLeftChars c (trimLeftChars c (c :: X).reverse).reverse = p at h hh hl ⊢
  cases n with
  | succ n =>
    refine ⟨n, m, ?_, hh, hl⟩
    simp only [List.replicate_succ, List.cons_append, List.cons.injEq, true_and] at h
    exact h
  | zero =>
    cases p with
    | cons x xs =>
      exfalso
      simp only [List.replicate_zero, List.nil_append, List.cons_append, List.cons.injEq] at h
      apply hh
      rw [h.1]
      rfl
    | nil =>
      cases m with
      | zero => simp at h
      | succ m =>
        refine ⟨m, 0, ?_, hh, hl⟩
        simp only [List.replicate_zero, List.nil_append, List.replicate_succ,
          List.cons.injEq, true_and] at h
        simp [h]

/-- A line with a `=` splits at `=` into at least two pieces, the second being
the text between the first `=` and the next. -/
theorem stringsSplit_of_mem (line : String) (h : '=' ∈ line.data) :
    ∃ a b t, stringsSplit line '=' = a :: b :: t := by
  have hlen : (stringsSplit line '=').length = line.data.count '=' + 1 := by
    simp [stringsSplit, splitChars_length]
  have hpos : 0 < line.data.count '=' := List.count_pos_iff.mpr h
  match hs : stringsSplit line '=' with
  | [] => rw [hs] at hlen; simp at hlen
  | [a] => rw [hs] at hlen; simp at hlen; omega
  | a :: b :: t => exact ⟨a, b, t, rfl⟩

theorem stringsSplit_of_not_mem (line : String) (h : '=' ∉ line.data) :
    stringsSplit line '=' = [line] := by
  unfold stringsSplit
  rw [splitChars_of_not_mem _ _ h]
  rfl

/-- The scan loop passes over lines that lack `password` or lack `=`. -/
theorem scanPassword_skip (c : Creds) (err : ScanErr) (pre rest : List String)
    (h : ∀ l ∈ pre, ¬ (stringsContains l "password" = true ∧ '=' ∈ l.data)) :
    scanPassword c err (pre ++ rest) = scanPassword c err rest := by
  induction pre with
  | nil => rfl
  | cons x xs ih =>
    have hx := h x (List.mem_cons_self _ _)
    have ih' := ih (fun l hl => h l (List.mem_cons_of_mem _ hl))
    simp only [List.cons_append]
    rw [scanPassword]
    by_cases hc : stringsContains x "password" = true
    · have hm : '=' ∉ x.data := fun hm => hx ⟨hc, hm⟩
      rw [if_pos hc, stringsSplit_of_not_mem x hm]
      exact ih'
    · rw [if_neg hc]
      exact ih'

/-- The scan loop stops at a line that holds `password` and a `=`. -/
theorem scanPassword_hit (c : Creds) (err : ScanErr) (line : String) (rest : List String)
    (h : stringsContains line "password" = true ∧ '=' ∈ line.data)
    (herr : err ≠ ScanErr.withLastLine) :
    ∃ a b t, stringsSplit line '=' = a :: b :: t ∧
      scanPassword c err (line :: rest) = some (setKey c "pass" (stringsTrim b ' ')) := by
  obtain ⟨a, b, t, hs⟩ := stringsSplit_of_mem line h.2
  refine ⟨a, b, t, hs, ?_⟩
  rw [scanPassword, if_pos h.1, hs]
  simp only
  rw [if_neg (fun hh => herr hh.2)]

theorem ParseInt_errSyn_zero (l : List Char) (h : (ParseInt l).2 = some NumError.errSyn) :
    (ParseInt l).1 = 0 := by
  cases l with
  | nil => rfl
  | cons c cs =>
    unfold ParseInt at h ⊢
    simp only at h ⊢
    generalize ParseUint (if c = '+' ∨ c = '-' then cs else c :: cs) = r at h ⊢
    obtain ⟨un, e⟩ := r
    cases e with
    | none =>
      simp only at h ⊢
      split_ifs at h <;> simp at h
    | some e' =>
      cases e' with
      | errSyn => rfl
      | errRange =>
        simp only at h ⊢
        split_ifs at h <;> simp at h

/-- When `Atoi` reports a syntax error the value it returns is 0. -/
theorem Atoi_errSyn_zero (s : String) (h : (Atoi s).2 = some NumError.errSyn) :
    (Atoi s).1 = 0 := by
  unfold Atoi at h ⊢
  by_cases hfast : 0 < s.utf8ByteSize ∧ s.utf8ByteSize < 19
  · simp only [if_pos hfast] at h ⊢
    cases hd : s.data with
    | nil => rfl
    | cons c cs =>
      simp only [hd] at h ⊢
      by_cases hl : (if c = '-' ∨ c = '+' then cs else c :: cs).length < 1
      · rw [if_pos hl]
      · rw [if_neg hl] at h ⊢
        cases hn : atoiFast 0 (if c = '-' ∨ c = '+' then cs else c :: cs) with
        | none => rfl
        | some n =>
          rw [hn] at h
          simp at h
  · simp only [if_neg hfast] at h ⊢
    exact ParseInt_errSyn_zero s.data h

theorem atoiFast_none (ds : List Char) (h : ¬ ∀ x ∈ ds, x.isDigit = true) (n : Nat) :
    atoiFast n ds = none := by
  induction ds generalizing n with
  | nil => exact absurd (fun x hx => absurd hx (List.not_mem_nil x)) h
  | cons c cs ih =>
    unfold atoiFast
    by_cases hc : c.isDigit = true
    · rw [if_pos ((isDigit_iff c).mp hc)]
      apply ih
      intro hall
      apply h
      intro x hx
      rcases List.mem_cons.mp hx with rfl | hx
      · exact hc
      · exact hall x hx
    · rw [if_neg (fun hh => hc ((isDigit_iff c).mpr hh))]

/-- A string of at most 18 bytes that is not a decimal literal is rejected by
`Atoi` with a syntax error. -/
theorem Atoi_short_nondecimal (s : String) (h : decimalInt s = none)
    (hlen : s.utf8ByteSize < 19) : (Atoi s).2 = some NumError.errSyn := by
  obtain ⟨l⟩ := s
  cases l with
  | nil => rfl
  | cons c cs =>
    have hpos : 0 < (String.mk (c :: cs)).utf8ByteSize := by
      rw [gt_iff_lt.symm, utf8ByteSize_pos_iff]
      intro e
      have := congrArg String.data e
      cases this
    unfold Atoi
    simp only
    rw [if_pos ⟨hpos, hlen⟩]
    simp only [decimalInt] at h
    by_cases hl : (if c = '-' ∨ c = '+' then cs else c :: cs).length < 1
    · rw [if_pos hl]
    · rw [if_neg hl]
      have hnot : ¬ ∀ x ∈ (if c = '-' ∨ c = '+' then cs else c :: cs), x.isDigit = true := by
        intro hall
        by_cases h1 : c = '-'
        · rw [if_pos (Or.inl h1)] at hall hl
          rw [if_pos h1] at h
          have hne : cs ≠ [] := by
            intro e; rw [e] at hl; exact hl (by decide)
          rw [if_pos ⟨hne, List.all_eq_true.mpr hall⟩] at h
          cases h
        · rw [if_neg h1] at h
          by_cases h2 : c = '+'
          · rw [if_pos (Or.inr h2)] at hall hl
            rw [if_pos h2] at h
            have hne : cs ≠ [] := by
              intro e; rw [e] at hl; exact hl (by decide)
            rw [if_pos ⟨hne, List.all_eq_true.mpr hall⟩] at h
            cases h
          · rw [if_neg (fun hh => hh.elim h1 h2)] at hall
            rw [if_neg h2, if_pos (List.all_eq_true.mpr hall)] at h
            cases h
      rw [atoiFast_none _ hnot 0]

/-! ## Claims -/

/-- C1: for each of the eight assemblers, every platform id of its supported set
and every install config, the bundle built from the empty bundle has commands,
error messages and hardness flags of one common length, and that length is at
least 1 (it is 6, 1, 1, 1, 1, 3, 7, and 19 or 20); `addCmd` extends each of the
three sequences by exactly one element. -/
theorem assemblers_equal_lengths (YarnGPG YarnRepo NodeURL : String) (esc : String → String)
    (inst : InstallConfig) (id : String) :
    (id ∈ debianUbuntuIds →
      ∃ n, 1 ≤ n ∧ (ubuntuInitOSInst YarnGPG YarnRepo NodeURL id emptyCmds).hasLength n) ∧
    (id ∈ ubuntuIds → ∃ n, 1 ≤ n ∧ (ubuntuInstSQLite id emptyCmds).hasLength n) ∧
    (id ∈ ubuntuIds → ∃ n, 1 ≤ n ∧ (ubuntuInstMariaDB id emptyCmds).hasLength n) ∧
    (id ∈ ubuntuIds → ∃ n, 1 ≤ n ∧ (ubuntuInstMySQL id emptyCmds).hasLength n) ∧
    (id ∈ debianUbuntuIds → ∃ n, 1 ≤ n ∧ (ubuntuInstPostgreSQL id emptyCmds).hasLength n) ∧
    (id ∈ ubuntuIds → ∃ n, 1 ≤ n ∧ (ubuntuInstPostgreSQLClient id emptyCmds).hasLength n) ∧
    (id ∈ ubuntuIds → ∃ n, 1 ≤ n ∧ (ubuntuOSPrep id inst emptyCmds).hasLength n) ∧
    (id ∈ ubuntuIds →
      ∃ n, 1 ≤ n ∧ (ubuntuSetupDDjango esc id inst emptyCmds).2.hasLength n) ∧
    (∀ (b : osCmds) (c e : String) (h : Bool) (n : Nat),
      b.hasLength n → (addCmd b c e h).hasLength (n + 1)) := by
  refine ⟨?_, ?_, ?_, ?_, ?_, ?_, ?_, ?_, ?_⟩
  · intro h
    refine ⟨6, by decide, ?_⟩
    simp [ubuntuInitOSInst, if_pos (lower_mem_of_mem h), osCmds.hasLength]
  · intro h
    refine ⟨1, by decide, ?_⟩
    simp [ubuntuInstSQLite, if_pos (mem_ubuntuIds.mp h), osCmds.hasLength]
  · intro h
    refine ⟨1, by decide, ?_⟩
    simp [ubuntuInstMariaDB, if_pos (mem_ubuntuIds.mp h), osCmds.hasLength]
  · intro h
    refine ⟨1, by decide, ?_⟩
    simp [ubuntuInstMySQL, if_pos (mem_ubuntuIds.mp h), osCmds.hasLength]
  · intro h
    refine ⟨1, by decide, ?_⟩
    simp [ubuntuInstPostgreSQL, if_pos (lower_mem_of_mem h), osCmds.hasLength]
  · intro h
    refine ⟨3, by decide, ?_⟩
    simp [ubuntuInstPostgreSQLClient, if_pos (mem_ubuntuIds.mp h), osCmds.hasLength]
  · intro h
    refine ⟨7, by decide, ?_⟩
    simp [ubuntuOSPrep, if_pos (mem_ubuntuIds.mp h), osCmds.hasLength]
  · intro h
    refine ⟨(setupCommands esc inst).length, ?_, ?_, ?_, ?_⟩
    · rw [setupCommands_length]; split <;> decide
    · rw [setup_cmds esc id inst emptyCmds h]; simp [emptyCmds]
    · rw [setup_errmsg_length esc id inst emptyCmds h]; simp [emptyCmds]
    · rw [setup_hard esc id inst emptyCmds h]; simp [emptyCmds]
  · intro b c e h n hb
    obtain ⟨h1, h2, h3⟩ := hb
    simp [osCmds.hasLength, addCmd, h1, h2, h3]

/-- Witness for C1 at `ubuntu:20.04`, which is in both supported sets. -/
theorem assemblers_equal_lengths_witness :
    "ubuntu:20.04" ∈ debianUbuntuIds ∧ "ubuntu:20.04" ∈ ubuntuIds ∧
    (∃ n, 1 ≤ n ∧ (ubuntuInitOSInst "K" "R" "N" "ubuntu:20.04" emptyCmds).hasLength n) ∧
    (∃ n, 1 ≤ n ∧ (ubuntuSetupDDjango (fun s => s) "ubuntu:20.04"
      ⟨"/opt/dojo", ⟨"dojo", "dojo"⟩, ⟨"admin", "pw", ""⟩, "2.3.1", false⟩ emptyCmds).2.hasLength n) :=
  ⟨by decide, by decide,
   (assemblers_equal_lengths "K" "R" "N" (fun s => s)
      ⟨"/opt/dojo", ⟨"dojo", "dojo"⟩, ⟨"admin", "pw", ""⟩, "2.3.1", false⟩ "ubuntu:20.04").1
      (by decide),
   (assemblers_equal_lengths "K" "R" "N" (fun s => s)
      ⟨"/opt/dojo", ⟨"dojo", "dojo"⟩, ⟨"admin", "pw", ""⟩, "2.3.1", false⟩
      "ubuntu:20.04").2.2.2.2.2.2.2.1 (by decide)⟩

/-- C2: an assembler leaves the bundle as it was, in all four fields, when the
platform id does not match its supported set: for the six assemblers that switch
on the id itself, whenever the id is not one of the four Ubuntu ids; for the two
that switch on the lowercased id (`ubuntuInitOSInst`, `ubuntuInstPostgreSQL`),
whenever the lowercased id is neither `debian:10` nor one of the four Ubuntu
ids. -/
theorem unsupported_id_leaves_bundle (YarnGPG YarnRepo NodeURL : String) (esc : String → String)
    (inst : InstallConfig) (id : String) (b : osCmds) :
    (stringsToLower id ∉ debianUbuntuIds →
      ubuntuInitOSInst YarnGPG YarnRepo NodeURL id b = b) ∧
    (id ∉ ubuntuIds → ubuntuInstSQLite id b = b) ∧
    (id ∉ ubuntuIds → ubuntuInstMariaDB id b = b) ∧
    (id ∉ ubuntuIds → ubuntuInstMySQL id b = b) ∧
    (stringsToLower id ∉ debianUbuntuIds → ubuntuInstPostgreSQL id b = b) ∧
    (id ∉ ubuntuIds → ubuntuInstPostgreSQLClient id b = b) ∧
    (id ∉ ubuntuIds → ubuntuOSPrep id inst b = b) ∧
    (id ∉ ubuntuIds → (ubuntuSetupDDjango esc id inst b).2 = b) := by
  refine ⟨?_, ?_, ?_, ?_, ?_, ?_, ?_, ?_⟩
  · intro h
    simp only [ubuntuInitOSInst]
    exact if_neg (fun hm => h (mem_debianUbuntuIds.mpr hm))
  · intro h
    exact if_neg (fun hm => h (mem_ubuntuIds.mpr hm))
  · intro h
    exact if_neg (fun hm => h (mem_ubuntuIds.mpr hm))
  · intro h
    exact if_neg (fun hm => h (mem_ubuntuIds.mpr hm))
  · intro h
    simp only [ubuntuInstPostgreSQL]
    exact if_neg (fun hm => h (mem_debianUbuntuIds.mpr hm))
  · intro h
    exact if_neg (fun hm => h (mem_ubuntuIds.mpr hm))
  · intro h
    exact if_neg (fun hm => h (mem_ubuntuIds.mpr hm))
  · intro h
    simp only [ubuntuSetupDDjango]
    rw [if_neg (fun hm => h (mem_ubuntuIds.mpr hm))]

/-- Witness for C2: `debian:10` is not an Ubuntu id, and `centos:8` is in neither
set; the empty bundle stays empty. -/
theorem unsupported_id_leaves_bundle_witness :
    "debian:10" ∉ ubuntuIds ∧ stringsToLower "centos:8" ∉ debianUbuntuIds ∧
    ubuntuInstSQLite "debian:10" emptyCmds = emptyCmds ∧
    ubuntuInstPostgreSQLClient "debian:10" emptyCmds = emptyCmds ∧
    ubuntuOSPrep "debian:10"
      ⟨"/opt/dojo", ⟨"dojo", "dojo"⟩, ⟨"admin", "pw", ""⟩, "2.3.1", false⟩ emptyCmds
      = emptyCmds ∧
    (ubuntuSetupDDjango (fun s => s) "debian:10"
      ⟨"/opt/dojo", ⟨"dojo", "dojo"⟩, ⟨"admin", "pw", ""⟩, "2.3.1", false⟩ emptyCmds).2
      = emptyCmds ∧
    ubuntuInitOSInst "K" "R" "N" "centos:8" emptyCmds = emptyCmds :=
  ⟨by decide, by decide,
   (unsupported_id_leaves_bundle "K" "R" "N" (fun s => s)
      ⟨"/opt/dojo", ⟨"dojo", "dojo"⟩, ⟨"admin", "pw", ""⟩, "2.3.1", false⟩ "debian:10"
      emptyCmds).2.1 (by decide),
   (unsupported_id_leaves_bundle "K" "R" "N" (fun s => s)
      ⟨"/opt/dojo", ⟨"dojo", "dojo"⟩, ⟨"admin", "pw", ""⟩, "2.3.1", false⟩ "debian:10"
      emptyCmds).2.2.2.2.2.1 (by decide),
   (unsupported_id_leaves_bundle "K" "R" "N" (fun s => s)
      ⟨"/opt/dojo", ⟨"dojo", "dojo"⟩, ⟨"admin", "pw", ""⟩, "2.3.1", false⟩ "debian:10"
      emptyCmds).2.2.2.2.2.2.1 (by decide),
   (unsupported_id_leaves_bundle "K" "R" "N" (fun s => s)
      ⟨"/opt/dojo", ⟨"dojo", "dojo"⟩, ⟨"admin", "pw", ""⟩, "2.3.1", false⟩ "debian:10"
      emptyCmds).2.2.2.2.2.2.2 (by decide),
   (unsupported_id_leaves_bundle "K" "R" "N" (fun s => s)
      ⟨"/opt/dojo", ⟨"dojo", "dojo"⟩, ⟨"admin", "pw", ""⟩, "2.3.1", false⟩ "centos:8"
      emptyCmds).1 (by decide)⟩

/-- C3 (the code at the failing inputs): the six assemblers that switch on the id
itself are case-sensitive. `UBUNTU:20.04` and `Ubuntu:20.04` leave the empty
bundle empty in each of them, while `ubuntu:20.04` fills it; so for
`Ubuntu:20.04`, Version `2.3.1` and an empty Admin.Email the app-setup bundle
holds no command at all. The two assemblers that lowercase the id do fill the
bundle for `UBUNTU:20.04`. -/
theorem upper_case_id_not_matched :
    ubuntuInstSQLite "UBUNTU:20.04" emptyCmds = emptyCmds ∧
    ubuntuInstMariaDB "UBUNTU:20.04" emptyCmds = emptyCmds ∧
    ubuntuInstMySQL "Ubuntu:20.04" emptyCmds = emptyCmds ∧
    ubuntuInstPostgreSQLClient "UBUNTU:20.04" emptyCmds = emptyCmds ∧
    ubuntuOSPrep "Ubuntu:20.04"
      ⟨"/opt/dojo", ⟨"dojo", "dojo"⟩, ⟨"admin", "pw", ""⟩, "2.3.1", false⟩ emptyCmds
      = emptyCmds ∧
    (ubuntuSetupDDjango (fun s => s) "Ubuntu:20.04"
      ⟨"/opt/dojo", ⟨"dojo", "dojo"⟩, ⟨"admin", "pw", ""⟩, "2.3.1", false⟩ emptyCmds).2
      = emptyCmds ∧
    stringsToLower "UBUNTU:20.04" = "ubuntu:20.04" ∧
    stringsToLower "Ubuntu:20.04" = "ubuntu:20.04" ∧
    (ubuntuInstSQLite "ubuntu:20.04" emptyCmds).cmds.length = 1 ∧
    (ubuntuSetupDDjango (fun s => s) "ubuntu:20.04"
      ⟨"/opt/dojo", ⟨"dojo", "dojo"⟩, ⟨"admin", "pw", ""⟩, "2.3.1", false⟩
      emptyCmds).2.cmds.length = 20 ∧
    (ubuntuInstPostgreSQL "UBUNTU:20.04" emptyCmds).cmds
      = (ubuntuInstPostgreSQL "ubuntu:20.04" emptyCmds).cmds ∧
    (ubuntuInstPostgreSQL "UBUNTU:20.04" emptyCmds).cmds.length = 1 := by
  decide

/-- C9: for each of the eight assemblers, every platform id of its supported set
and every install config, the bundle built from the empty bundle holds one
hardness flag per command and every flag is `true`: six for the bootstrap steps,
one for the single install command of each of the four engines, three for the
PostgreSQL-client steps, seven for the OS-prep steps, and 19 or 20 for app setup,
which on any bundle appends one `true` flag for each command it appends. -/
theorem every_flag_hard (YarnGPG YarnRepo NodeURL : String) (esc : String → String)
    (inst : InstallConfig) (id : String) :
    (id ∈ debianUbuntuIds →
      (ubuntuInitOSInst YarnGPG YarnRepo NodeURL id emptyCmds).cmds.length = 6 ∧
      (ubuntuInitOSInst YarnGPG YarnRepo NodeURL id emptyCmds).hard = List.replicate 6 true) ∧
    (id ∈ ubuntuIds →
      (ubuntuInstSQLite id emptyCmds).cmds.length = 1 ∧
      (ubuntuInstSQLite id emptyCmds).hard = List.replicate 1 true) ∧
    (id ∈ ubuntuIds →
      (ubuntuInstMariaDB id emptyCmds).cmds.length = 1 ∧
      (ubuntuInstMariaDB id emptyCmds).hard = List.replicate 1 true) ∧
    (id ∈ ubuntuIds →
      (ubuntuInstMySQL id emptyCmds).cmds.length = 1 ∧
      (ubuntuInstMySQL id emptyCmds).hard = List.replicate 1 true) ∧
    (id ∈ debianUbuntuIds →
      (ubuntuInstPostgreSQL id emptyCmds).cmds.length = 1 ∧
      (ubuntuInstPostgreSQL id emptyCmds).hard = List.replicate 1 true) ∧
    (id ∈ ubuntuIds →
      (ubuntuInstPostgreSQLClient id emptyCmds).cmds.length = 3 ∧
      (ubuntuInstPostgreSQLClient id emptyCmds).hard = List.replicate 3 true) ∧
    (id ∈ ubuntuIds →
      (ubuntuOSPrep id inst emptyCmds).cmds.length = 7 ∧
      (ubuntuOSPrep id inst emptyCmds).hard = List.replicate 7 true) ∧
    (id ∈ ubuntuIds →
      ((ubuntuSetupDDjango esc id inst emptyCmds).2.cmds.length = 19 ∨
        (ubuntuSetupDDjango esc id inst emptyCmds).2.cmds.length = 20) ∧
      (ubuntuSetupDDjango esc id inst emptyCmds).2.hard =
        List.replicate (ubuntuSetupDDjango esc id inst emptyCmds).2.cmds.length true ∧
      (∀ b : osCmds, ∃ added : List String,
        (ubuntuSetupDDjango esc id inst b).2.cmds = b.cmds ++ added ∧
        (ubuntuSetupDDjango esc id inst b).2.hard =
          b.hard ++ List.replicate added.length true)) := by
  refine ⟨?_, ?_, ?_, ?_, ?_, ?_, ?_, ?_⟩
  · intro h
    simp [ubuntuInitOSInst, if_pos (lower_mem_of_mem h), List.replicate]
  · intro h
    simp [ubuntuInstSQLite, if_pos (mem_ubuntuIds.mp h), List.replicate]
  · intro h
    simp [ubuntuInstMariaDB, if_pos (mem_ubuntuIds.mp h), List.replicate]
  · intro h
    simp [ubuntuInstMySQL, if_pos (mem_ubuntuIds.mp h), List.replicate]
  · intro h
    simp [ubuntuInstPostgreSQL, if_pos (lower_mem_of_mem h), List.replicate]
  · intro h
    simp [ubuntuInstPostgreSQLClient, if_pos (mem_ubuntuIds.mp h), List.replicate]
  · intro h
    simp [ubuntuOSPrep, if_pos (mem_ubuntuIds.mp h), List.replicate]
  · intro h
    have hc := setup_cmds esc id inst emptyCmds h
    have hh := setup_hard esc id inst emptyCmds h
    have hl := setupCommands_length esc inst
    simp only [emptyCmds, List.nil_append] at hc hh
    refine ⟨?_, ?_, ?_⟩
    · simp only [emptyCmds]
      rw [hc, hl]
      split
      · right; rfl
      · left; rfl
    · simp only [emptyCmds]
      rw [hh, hc]
    · intro b
      exact ⟨setupCommands esc inst, setup_cmds esc id inst b h, setup_hard esc id inst b h⟩

/-- Witness for C9 at `debian:10` (bootstrap) and `ubuntu:21.04` (app setup). -/
theorem every_flag_hard_witness :
    "debian:10" ∈ debianUbuntuIds ∧ "ubuntu:21.04" ∈ ubuntuIds ∧
    ((ubuntuInitOSInst "K" "R" "N" "debian:10" emptyCmds).cmds.length = 6 ∧
      (ubuntuInitOSInst "K" "R" "N" "debian:10" emptyCmds).hard = List.replicate 6 true) ∧
    (ubuntuSetupDDjango (fun s => s) "ubuntu:21.04"
      ⟨"/opt/dojo", ⟨"dojo", "dojo"⟩, ⟨"admin", "pw", ""⟩, "1.15.1", false⟩ emptyCmds).2.hard =
      List.replicate (ubuntuSetupDDjango (fun s => s) "ubuntu:21.04"
        ⟨"/opt/dojo", ⟨"dojo", "dojo"⟩, ⟨"admin", "pw", ""⟩, "1.15.1", false⟩
        emptyCmds).2.cmds.length true ∧
    (ubuntuSetupDDjango (fun s => s) "ubuntu:21.04"
      ⟨"/opt/dojo", ⟨"dojo", "dojo"⟩, ⟨"admin", "pw", ""⟩, "1.15.1", false⟩
      emptyCmds).2.hard.length = 19 :=
  ⟨by decide, by decide,
   (every_flag_hard "K" "R" "N" (fun s => s)
      ⟨"/opt/dojo", ⟨"dojo", "dojo"⟩, ⟨"admin", "pw", ""⟩, "1.15.1", false⟩ "debian:10").1
      (by decide),
   ((every_flag_hard "K" "R" "N" (fun s => s)
      ⟨"/opt/dojo", ⟨"dojo", "dojo"⟩, ⟨"admin", "pw", ""⟩, "1.15.1", false⟩
      "ubuntu:21.04").2.2.2.2.2.2.2 (by decide)).2.1,
   by decide⟩

/-- C10: for `debian:10` and each of the four Ubuntu ids, `ubuntuInitOSInst`
builds a bundle of exactly 6 commands, 6 error messages and 6 hardness flags, all
flags `true`; the commands are, in order, the Yarn GPG key fetch, the write of
the Yarn apt source list, apt-get update, the install of sudo, the NodeSource
setup script and the apt-get install of the package list. -/
theorem bootstrap_six_commands (YarnGPG YarnRepo NodeURL : String) (id : String) (b : osCmds)
    (h : id ∈ debianUbuntuIds) :
    (ubuntuInitOSInst YarnGPG YarnRepo NodeURL id b).cmds =
      ["curl -sS " ++ YarnGPG ++ " | apt-key add -",
       "echo -n " ++ YarnRepo ++ " > /etc/apt/sources.list.d/yarn.list",
       "DEBIAN_FRONTEND=noninteractive apt-get update",
       "DEBIAN_FRONTEND=noninteractive apt-get install sudo",
       "curl -sL " ++ NodeURL ++ " | bash - ",
       "DEBIAN_FRONTEND=noninteractive apt-get install -y apt-transport-https libjpeg-dev gcc libssl-dev python3-dev python3-pip python3-virtualenv yarn build-essential expect"] ∧
    (ubuntuInitOSInst YarnGPG YarnRepo NodeURL id b).cmds.length = 6 ∧
    (ubuntuInitOSInst YarnGPG YarnRepo NodeURL id b).errmsg.length = 6 ∧
    (ubuntuInitOSInst YarnGPG YarnRepo NodeURL id b).hard = [true, true, true, true, true, true] ∧
    (ubuntuInitOSInst YarnGPG YarnRepo NodeURL id b).cmds.head? =
      some ("curl -sS " ++ YarnGPG ++ " | apt-key add -") := by
  simp [ubuntuInitOSInst, if_pos (lower_mem_of_mem h)]

/-- Witness for C10 at `debian:10`. -/
theorem bootstrap_six_commands_witness :
    "debian:10" ∈ debianUbuntuIds ∧
    (ubuntuInitOSInst "https://dl.yarnpkg.com/debian/pubkey.gpg" "R" "N" "debian:10"
      emptyCmds).cmds.length = 6 ∧
    (ubuntuInitOSInst "https://dl.yarnpkg.com/debian/pubkey.gpg" "R" "N" "debian:10"
      emptyCmds).hard = [true, true, true, true, true, true] ∧
    (ubuntuInitOSInst "https://dl.yarnpkg.com/debian/pubkey.gpg" "R" "N" "debian:10"
      emptyCmds).cmds.head? =
      some "curl -sS https://dl.yarnpkg.com/debian/pubkey.gpg | apt-key add -" :=
  ⟨by decide,
   (bootstrap_six_commands "https://dl.yarnpkg.com/debian/pubkey.gpg" "R" "N" "debian:10"
      emptyCmds (by decide)).2.1,
   (bootstrap_six_commands "https://dl.yarnpkg.com/debian/pubkey.gpg" "R" "N" "debian:10"
      emptyCmds (by decide)).2.2.2.1,
   (bootstrap_six_commands "https://dl.yarnpkg.com/debian/pubkey.gpg" "R" "N" "debian:10"
      emptyCmds (by decide)).2.2.2.2⟩

/-- C4 (counterexample): the version `-9223372036854775809.0.0` is made of three
decimal integers and the bounds -2^63, 0, 0 are Go `int`s; the major component
is below its bound, yet `onlyAfter` returns true, because `Atoi` reads a
component below the least `int` as the least `int`. -/
theorem onlyAfter_below_least_int :
    decimalInt "-9223372036854775809" = some (-9223372036854775809) ∧
    decimalInt "0" = some 0 ∧
    "-9223372036854775809" ++ "." ++ "0" ++ "." ++ "0" = "-9223372036854775809.0.0" ∧
    minInt ≤ -9223372036854775808 ∧ (-9223372036854775808 : Int) ≤ maxInt ∧
    onlyAfter "-9223372036854775809.0.0" (-9223372036854775808) 0 0 = true ∧
    ¬ ((-9223372036854775809 : Int) ≥ -9223372036854775808 ∧ (0 : Int) ≥ 0 ∧ (0 : Int) ≥ 0) ∧
    Atoi "-9223372036854775809" = (-9223372036854775808, some NumError.errRange) := by
  decide

/-- C4 (amended): for every version string made of three dot-separated decimal
integers `a.b.c` and all bounds, `onlyAfter` returns true if and only if each
component, brought into the range of `int` (below -2^63 read as -2^63, above
2^63 - 1 read as 2^63 - 1), is at least its bound; so whenever every component is
at least -2^63 and the bounds are Go `int`s, `onlyAfter` returns true if and
only if `a >= major`, `b >= minor` and `c >= patch`. -/
theorem onlyAfter_componentwise (sa sb sc : String) (a b c major minor patch : Int)
    (ha : decimalInt sa = some a) (hb : decimalInt sb = some b) (hc : decimalInt sc = some c) :
    (onlyAfter (sa ++ "." ++ sb ++ "." ++ sc) major minor patch = true ↔
      (clampInt a ≥ major ∧ clampInt b ≥ minor ∧ clampInt c ≥ patch)) ∧
    (minInt ≤ a → minInt ≤ b → minInt ≤ c →
      major ≤ maxInt → minor ≤ maxInt → patch ≤ maxInt →
      (onlyAfter (sa ++ "." ++ sb ++ "." ++ sc) major minor patch = true ↔
        (a ≥ major ∧ b ≥ minor ∧ c ≥ patch))) := by
  have h := onlyAfter_decimal sa sb sc a b c major minor patch ha hb hc
  constructor
  · rw [h]
  · intro hra hrb hrc hmaj hmin hpat
    rw [h]
    simp only [clampInt, minInt, maxInt] at *
    omega

/-- Witness for C4 (amended): `onlyAfter("2.0.0", 2, 0, 0)` is true and
`onlyAfter("1.9.9", 2, 0, 0)` is false. -/
theorem onlyAfter_componentwise_witness :
    decimalInt "2" = some 2 ∧ decimalInt "0" = some 0 ∧
    decimalInt "1" = some 1 ∧ decimalInt "9" = some 9 ∧
    "2" ++ "." ++ "0" ++ "." ++ "0" = "2.0.0" ∧ "1" ++ "." ++ "9" ++ "." ++ "9" = "1.9.9" ∧
    (onlyAfter ("2" ++ "." ++ "0" ++ "." ++ "0") 2 0 0 = true ↔
      ((2 : Int) ≥ 2 ∧ (0 : Int) ≥ 0 ∧ (0 : Int) ≥ 0)) ∧
    (onlyAfter ("1" ++ "." ++ "9" ++ "." ++ "9") 2 0 0 = true ↔
      ((1 : Int) ≥ 2 ∧ (9 : Int) ≥ 0 ∧ (9 : Int) ≥ 0)) ∧
    onlyAfter "2.0.0" 2 0 0 = true ∧ onlyAfter "1.9.9" 2 0 0 = false :=
  ⟨by decide, by decide, by decide, by decide, by decide, by decide,
   (onlyAfter_componentwise "2" "0" "0" 2 0 0 2 0 0 (by decide) (by decide) (by decide)).2
     (by decide) (by decide) (by decide) (by decide) (by decide) (by decide),
   (onlyAfter_componentwise "1" "9" "9" 1 9 9 2 0 0 (by decide) (by decide) (by decide)).2
     (by decide) (by decide) (by decide) (by decide) (by decide) (by decide),
   by decide, by decide⟩

/-- C5: a string that does not split at the dots into exactly three components,
that is, a string whose number of dots is not 2, is rejected by `onlyAfter`
whatever the bounds are, zero and negative bounds included. -/
theorem onlyAfter_rejects_bad_shape (v : String) (major minor patch : Int)
    (h : v.data.count '.' ≠ 2) :
    (stringsSplit v '.').length ≠ 3 ∧ onlyAfter v major minor patch = false := by
  have hl : (stringsSplit v '.').length ≠ 3 := by
    simp only [stringsSplit, List.length_map, splitChars_length]
    omega
  exact ⟨hl, onlyAfter_of_length_ne v major minor patch hl⟩

/-- Witness for C5: `abc`, the empty string, `2.0` and `2.0.0.1`, with zero and
negative bounds. -/
theorem onlyAfter_rejects_bad_shape_witness :
    "abc".data.count '.' ≠ 2 ∧ onlyAfter "abc" 2 0 0 = false ∧
    onlyAfter "" 0 0 0 = false ∧ onlyAfter "2.0" (-1) (-1) (-1) = false ∧
    onlyAfter "2.0.0.1" 0 0 0 = false :=
  ⟨by decide,
   (onlyAfter_rejects_bad_shape "abc" 2 0 0 (by decide)).2,
   (onlyAfter_rejects_bad_shape "" 0 0 0 (by decide)).2,
   (onlyAfter_rejects_bad_shape "2.0" (-1) (-1) (-1) (by decide)).2,
   (onlyAfter_rejects_bad_shape "2.0.0.1" 0 0 0 (by decide)).2⟩

/-- C6: for every supported Ubuntu id, every config and every bundle, the
commands `ubuntuSetupDDjango` appends are, in this order: makemigrations dojo,
migrate, createsuperuser, the expect helper, `loaddata role` when the version
gate passes, the ten fixture loads in the order of the specification,
buildwatson, installwatson, yarn in components, collectstatic --noinput and the
chown of the root; 19 or 20 commands are appended and the chown is the last
command of the bundle. -/
theorem setup_command_order (esc : String → String) (id : String) (inst : InstallConfig)
    (b : osCmds) (h : id ∈ ubuntuIds) :
    (∃ added : List String,
      (ubuntuSetupDDjango esc id inst b).2.cmds = b.cmds ++ added ∧
      added =
        [manageCmd inst "makemigrations dojo", manageCmd inst "migrate",
          createSuperuserCmd inst, expectCmd esc inst]
        ++ (if onlyAfter inst.Version 2 0 0 then [manageCmd inst "loaddata role"] else [])
        ++ [manageCmd inst "loaddata product_type", manageCmd inst "loaddata test_type",
            manageCmd inst "loaddata development_environment",
            manageCmd inst "loaddata system_settings", manageCmd inst "loaddata benchmark_type",
            manageCmd inst "loaddata benchmark_category",
            manageCmd inst "loaddata benchmark_requirement",
            manageCmd inst "loaddata language_type", manageCmd inst "loaddata objects_review",
            manageCmd inst "loaddata regulation"]
        ++ [manageCmd inst "buildwatson", manageCmd inst "installwatson",
            "cd " ++ inst.Root ++ "/django-DefectDojo/components && yarn",
            "cd " ++ inst.Root ++ "/django-DefectDojo/ && source ../bin/activate && python3 manage.py collectstatic --noinput",
            "chown -R " ++ inst.OS.User ++ "." ++ inst.OS.Group ++ " " ++ inst.Root] ∧
      (added.length = 19 ∨ added.length = 20)) ∧
    (ubuntuSetupDDjango esc id inst b).2.cmds.getLast? =
      some ("chown -R " ++ inst.OS.User ++ "." ++ inst.OS.Group ++ " " ++ inst.Root) := by
  have hc := setup_cmds esc id inst b h
  have hs : setupCommands esc inst =
      [manageCmd inst "makemigrations dojo", manageCmd inst "migrate",
          createSuperuserCmd inst, expectCmd esc inst]
        ++ (if onlyAfter inst.Version 2 0 0 then [manageCmd inst "loaddata role"] else [])
        ++ [manageCmd inst "loaddata product_type", manageCmd inst "loaddata test_type",
            manageCmd inst "loaddata development_environment",
            manageCmd inst "loaddata system_settings", manageCmd inst "loaddata benchmark_type",
            manageCmd inst "loaddata benchmark_category",
            manageCmd inst "loaddata benchmark_requirement",
            manageCmd inst "loaddata language_type", manageCmd inst "loaddata objects_review",
            manageCmd inst "loaddata regulation"]
        ++ [manageCmd inst "buildwatson", manageCmd inst "installwatson",
            "cd " ++ inst.Root ++ "/django-DefectDojo/components && yarn",
            "cd " ++ inst.Root ++ "/django-DefectDojo/ && source ../bin/activate && python3 manage.py collectstatic --noinput",
            "chown -R " ++ inst.OS.User ++ "." ++ inst.OS.Group ++ " " ++ inst.Root] := by
    simp [setupCommands, fixtureNames, chownCmd]
  refine ⟨⟨setupCommands esc inst, hc, hs, ?_⟩, ?_⟩
  · rw [setupCommands_length]
    split
    · right; rfl
    · left; rfl
  · rw [hc, hs]
    cases onlyAfter inst.Version 2 0 0 <;> simp [List.getLast?_append]

/-- Witness for C6 at `ubuntu:18.04`, Version `1.15.1`: 19 commands, in order. -/
theorem setup_command_order_witness :
    "ubuntu:18.04" ∈ ubuntuIds ∧
    (ubuntuSetupDDjango (fun s => s) "ubuntu:18.04"
      ⟨"/opt/dojo", ⟨"dojo", "dojo"⟩, ⟨"admin", "pw", ""⟩, "1.15.1", false⟩
      emptyCmds).2.cmds.getLast? = some "chown -R dojo.dojo /opt/dojo" :=
  ⟨by decide,
   (setup_command_order (fun s => s) "ubuntu:18.04"
      ⟨"/opt/dojo", ⟨"dojo", "dojo"⟩, ⟨"admin", "pw", ""⟩, "1.15.1", false⟩ emptyCmds
      (by decide)).2⟩

/-- C7: for every supported Ubuntu id and every config whose Version is three
dot-separated non-negative decimal integers `a.b.c`, the app-setup bundle holds
the `python3 manage.py loaddata role` command if and only if `a.b.c >= 2.0.0` in
the order of version numbers (major, then minor, then patch); when it is there it
occurs exactly once, right after the expect-helper command and right before
`loaddata product_type`. -/
theorem loaddata_role_iff_version (esc : String → String) (id : String) (inst : InstallConfig)
    (sa sb sc : String) (a b c : Int) (h : id ∈ ubuntuIds)
    (hv : inst.Version = sa ++ "." ++ sb ++ "." ++ sc)
    (ha : decimalInt sa = some a) (hb : decimalInt sb = some b) (hc : decimalInt sc = some c)
    (a0 : 0 ≤ a) (b0 : 0 ≤ b) (c0 : 0 ≤ c) :
    (manageCmd inst "loaddata role" ∈ (ubuntuSetupDDjango esc id inst emptyCmds).2.cmds ↔
      versionGE a b c 2 0 0) ∧
    (versionGE a b c 2 0 0 →
      (ubuntuSetupDDjango esc id inst emptyCmds).2.cmds.count (manageCmd inst "loaddata role") = 1 ∧
      (ubuntuSetupDDjango esc id inst emptyCmds).2.cmds[3]? = some (expectCmd esc inst) ∧
      (ubuntuSetupDDjango esc id inst emptyCmds).2.cmds[4]? =
        some (manageCmd inst "loaddata role") ∧
      (ubuntuSetupDDjango esc id inst emptyCmds).2.cmds[5]? =
        some (manageCmd inst "loaddata product_type")) := by
  have hg := gate_iff_versionGE sa sb sc a b c ha hb hc a0 b0 c0
  rw [← hv] at hg
  rw [setup_cmds esc id inst emptyCmds h]
  simp only [emptyCmds, List.nil_append]
  have n1 := role_ne_createSuperuser inst
  have n2 := role_ne_expect esc inst
  have n3 := role_ne_yarn inst
  have n4 := role_ne_collectstatic inst
  have n5 := role_ne_chown inst
  cases hgate : onlyAfter inst.Version 2 0 0
  · have hno : ¬ versionGE a b c 2 0 0 := fun hh => by
      rw [hg.mpr hh] at hgate; cases hgate
    refine ⟨⟨?_, fun hh => absurd hh hno⟩, fun hh => absurd hh hno⟩
    intro hm
    simp [setupCommands, hgate, fixtureNames, manageCmd_inj, n1.symm, n2.symm, n3.symm,
      n4.symm, n5.symm] at hm
  · have hyes : versionGE a b c 2 0 0 := hg.mp hgate
    refine ⟨⟨fun _ => hyes, fun _ => ?_⟩, fun _ => ⟨?_, ?_, ?_, ?_⟩⟩
    · simp [setupCommands, hgate]
    · simp [setupCommands, hgate, fixtureNames, List.count_cons, manageCmd_inj, n1, n2, n3,
        n4, n5]
    · simp [setupCommands, hgate]
    · simp [setupCommands, hgate]
    · simp [setupCommands, hgate, fixtureNames]

/-- Witness for C7: Version `2.3.1` has the role fixture, at position 4. -/
theorem loaddata_role_iff_version_witness :
    "ubuntu:20.04" ∈ ubuntuIds ∧ decimalInt "2" = some 2 ∧ decimalInt "3" = some 3 ∧
    decimalInt "1" = some 1 ∧ versionGE 2 3 1 2 0 0 ∧
    (manageCmd ⟨"/opt/dojo", ⟨"dojo", "dojo"⟩, ⟨"admin", "pw", ""⟩, "2.3.1", false⟩ "loaddata role"
      ∈ (ubuntuSetupDDjango (fun s => s) "ubuntu:20.04"
          ⟨"/opt/dojo", ⟨"dojo", "dojo"⟩, ⟨"admin", "pw", ""⟩, "2.3.1", false⟩ emptyCmds).2.cmds
      ↔ versionGE 2 3 1 2 0 0) :=
  ⟨by decide, by decide, by decide, by decide, by decide,
   (loaddata_role_iff_version (fun s => s) "ubuntu:20.04"
      ⟨"/opt/dojo", ⟨"dojo", "dojo"⟩, ⟨"admin", "pw", ""⟩, "2.3.1", false⟩ "2" "3" "1" 2 3 1
      (by decide) (by decide) (by decide) (by decide) (by decide) (by decide) (by decide)
      (by decide)).1⟩

/-- C8: for every supported Ubuntu id and every config, the third command of the
app-setup bundle is the createsuperuser command, which carries
`--username="{Admin.User}"` and `--email="E"`, where `E` is
`default.user@defectdojo.org` when Admin.Email is the empty string and
Admin.Email itself otherwise. -/
theorem createsuperuser_email (esc : String → String) (id : String) (inst : InstallConfig)
    (h : id ∈ ubuntuIds) :
    (ubuntuSetupDDjango esc id inst emptyCmds).2.cmds[2]? =
      some ("cd " ++ inst.Root ++
        "/django-DefectDojo && source ../bin/activate && python3 manage.py createsuperuser --noinput"
        ++ " --username=\"" ++ inst.Admin.User ++ "\""
        ++ " --email=\"" ++
          (if inst.Admin.Email = "" then "default.user@defectdojo.org" else inst.Admin.Email)
        ++ "\"") := by
  rw [setup_cmds esc id inst emptyCmds h]
  simp [emptyCmds, setupCommands, createSuperuserCmd, manageCmd, djangoCmd, adminEmailOf,
    String.append_assoc]
  rfl

/-- Witness for C8: an empty Admin.Email gives the default address, a configured
one is used as it is. -/
theorem createsuperuser_email_witness :
    "ubuntu:20.04" ∈ ubuntuIds ∧
    (ubuntuSetupDDjango (fun s => s) "ubuntu:20.04"
      ⟨"/opt/dojo", ⟨"dojo", "dojo"⟩, ⟨"admin", "pw", ""⟩, "2.3.1", false⟩
      emptyCmds).2.cmds[2]? =
      some ("cd " ++ "/opt/dojo" ++
        "/django-DefectDojo && source ../bin/activate && python3 manage.py createsuperuser --noinput"
        ++ " --username=\"" ++ "admin" ++ "\""
        ++ " --email=\"" ++
          (if "" = "" then "default.user@defectdojo.org" else "")
        ++ "\"") :=
  ⟨by decide,
   createsuperuser_email (fun s => s) "ubuntu:20.04"
      ⟨"/opt/dojo", ⟨"dojo", "dojo"⟩, ⟨"admin", "pw", ""⟩, "2.3.1", false⟩ (by decide)⟩

/-- C12: for every install config with SourceInstall = true, whatever its Version
(`1.15.1` included), `patchOMatic` performs no action at all (no asset injection,
no shell command) and returns no error. -/
theorem patchOMatic_source_install_noop (inst : InstallConfig)
    (h : inst.SourceInstall = true) :
    (patchOMatic inst).1 = [] ∧ (patchOMatic inst).2 = none := by
  simp [patchOMatic, h]

/-- Witness for C12 at Version `1.15.1`. -/
theorem patchOMatic_source_install_noop_witness :
    (patchOMatic ⟨"/opt/dojo", ⟨"dojo", "dojo"⟩, ⟨"admin", "pw", ""⟩, "1.15.1", true⟩).1 = [] ∧
    (patchOMatic ⟨"/opt/dojo", ⟨"dojo", "dojo"⟩, ⟨"admin", "pw", ""⟩, "1.15.1", true⟩).2 = none :=
  patchOMatic_source_install_noop
    ⟨"/opt/dojo", ⟨"dojo", "dojo"⟩, ⟨"admin", "pw", ""⟩, "1.15.1", true⟩ rfl

/-- C13: for every install config with SourceInstall = false: when Version is
exactly `1.15.1`, `patchOMatic` performs exactly three actions, in this order:
the injection of asset `factory_2.0.3` into `{Root}/django-DefectDojo/dojo/tools`,
then `mv -f` of `factory.py` to `factory_py.buggy`, then `mv -f` of
`factory_2.0.3` to `factory.py`, both commands run with hard = false; for every
other Version it performs no action. -/
theorem patchOMatic_release_actions (inst : InstallConfig) (h : inst.SourceInstall = false) :
    (inst.Version = "1.15.1" →
      ∃ (mask : Nat) (e1 e2 : String), (patchOMatic inst).1 =
        [Action.injectFile "factory_2.0.3" (inst.Root ++ "/django-DefectDojo/dojo/tools") mask,
         Action.tryCmd ("mv -f " ++ inst.Root ++ "/django-DefectDojo/dojo/tools/factory.py "
            ++ inst.Root ++ "/django-DefectDojo/dojo/tools/factory_py.buggy") e1 false,
         Action.tryCmd ("mv -f " ++ inst.Root ++ "/django-DefectDojo/dojo/tools/factory_2.0.3 "
            ++ inst.Root ++ "/django-DefectDojo/dojo/tools/factory.py") e2 false]) ∧
    (inst.Version ≠ "1.15.1" → (patchOMatic inst).1 = []) := by
  constructor
  · intro hv
    refine ⟨755, "Error renaming factory.py to factory_py.buggy",
      "Error replacing factory.py with updated one from version 2.0.3", ?_⟩
    simp [patchOMatic, h, hv]
  · intro hv
    simp [patchOMatic, h, hv]

/-- Witness for C13: Version `1.15.1` gives three actions, Version `2.3.1` none. -/
theorem patchOMatic_release_actions_witness :
    (patchOMatic ⟨"/opt/dojo", ⟨"dojo", "dojo"⟩, ⟨"admin", "pw", ""⟩, "1.15.1", false⟩).1.length = 3
    ∧ (patchOMatic ⟨"/opt/dojo", ⟨"dojo", "dojo"⟩, ⟨"admin", "pw", ""⟩, "2.3.1", false⟩).1 = [] :=
  ⟨by
    obtain ⟨m, e1, e2, h⟩ := (patchOMatic_release_actions
      ⟨"/opt/dojo", ⟨"dojo", "dojo"⟩, ⟨"admin", "pw", ""⟩, "1.15.1", false⟩ rfl).1 rfl
    rw [h]; rfl,
   (patchOMatic_release_actions
      ⟨"/opt/dojo", ⟨"dojo", "dojo"⟩, ⟨"admin", "pw", ""⟩, "2.3.1", false⟩ rfl).2 (by decide)⟩

/-- C17: `onlyAfter` compares the components one by one and is not the order of
version numbers. For every version of three decimal integers the result is the
conjunction of three tests, one per component, each of a component against its
own bound alone. So, for components and bounds that are Go `int`s, a true result
implies `version >= bound` in the order by major, minor, patch, but not the other
way round: whenever the major is above its bound and the minor or the patch is
below its own, the version is greater and `onlyAfter` is false. In particular
`onlyAfter("1.9.0", 2, 0, 0)` is false and `onlyAfter("2.0.0", 1, 9, 0)` is false
although 2.0.0 is at least 1.9.0, while `onlyAfter("2.0.0", 2, 0, 0)` and
`onlyAfter("2.9.0", 1, 9, 0)` are true. -/
theorem onlyAfter_not_lexicographic :
    onlyAfter "1.9.0" 2 0 0 = false ∧ onlyAfter "2.0.0" 1 9 0 = false ∧
    decimalInt "2" = some 2 ∧ decimalInt "0" = some 0 ∧ versionGE 2 0 0 1 9 0 ∧
    ¬ versionGE 1 9 0 2 0 0 ∧
    onlyAfter "2.0.0" 2 0 0 = true ∧ onlyAfter "2.9.0" 1 9 0 = true ∧
    onlyAfter "1.9.0" 1 9 0 = true ∧
    (∀ (sa sb sc : String) (a b c major minor patch : Int),
      decimalInt sa = some a → decimalInt sb = some b → decimalInt sc = some c →
      (onlyAfter (sa ++ "." ++ sb ++ "." ++ sc) major minor patch = true ↔
        (onlyAfter (sa ++ "." ++ "0" ++ "." ++ "0") major 0 0 = true ∧
         onlyAfter ("0" ++ "." ++ sb ++ "." ++ "0") 0 minor 0 = true ∧
         onlyAfter ("0" ++ "." ++ "0" ++ "." ++ sc) 0 0 patch = true))) ∧
    (∀ (sa sb sc : String) (a b c major minor patch : Int),
      decimalInt sa = some a → decimalInt sb = some b → decimalInt sc = some c →
      minInt ≤ a → minInt ≤ b → minInt ≤ c →
      major ≤ maxInt → minor ≤ maxInt → patch ≤ maxInt →
      (onlyAfter (sa ++ "." ++ sb ++ "." ++ sc) major minor patch = true →
        versionGE a b c major minor patch) ∧
      (a > major → (b < minor ∨ c < patch) →
        versionGE a b c major minor patch ∧
        onlyAfter (sa ++ "." ++ sb ++ "." ++ sc) major minor patch = false)) := by
  refine ⟨by decide, by decide, by decide, by decide, by decide, by decide, by decide,
    by decide, by decide, ?_, ?_⟩
  · intro sa sb sc a b c major minor patch ha hb hc
    have h0 : decimalInt "0" = some 0 := by decide
    rw [onlyAfter_decimal sa sb sc a b c major minor patch ha hb hc,
      onlyAfter_decimal sa "0" "0" a 0 0 major 0 0 ha h0 h0,
      onlyAfter_decimal "0" sb "0" 0 b 0 0 minor 0 h0 hb h0,
      onlyAfter_decimal "0" "0" sc 0 0 c 0 0 patch h0 h0 hc]
    have hz : (0 : Int) ≤ clampInt 0 := by decide
    constructor
    · intro h
      exact ⟨⟨h.1, hz, hz⟩, ⟨hz, h.2.1, hz⟩, ⟨hz, hz, h.2.2⟩⟩
    · intro h
      exact ⟨h.1.1, h.2.1.2.1, h.2.2.2.2⟩
  · intro sa sb sc a b c major minor patch ha hb hc hra hrb hrc hmaj hmin hpat
    have h := onlyAfter_decimal sa sb sc a b c major minor patch ha hb hc
    constructor
    · intro ht
      have h' := h.mp ht
      simp only [clampInt, minInt, maxInt, versionGE] at *
      omega
    · intro hgt hlt
      constructor
      · left; exact hgt
      · rw [Bool.eq_false_iff]
        intro ht
        have h' := h.mp ht
        simp only [clampInt, minInt, maxInt] at *
        omega

/-- Witness for C17: version 2.0.0 against the bound 1.9.0. -/
theorem onlyAfter_not_lexicographic_witness :
    decimalInt "2" = some 2 ∧ decimalInt "0" = some 0 ∧ (2 : Int) > 1 ∧ (0 : Int) < 9 ∧
    versionGE 2 0 0 1 9 0 ∧ onlyAfter ("2" ++ "." ++ "0" ++ "." ++ "0") 1 9 0 = false :=
  ⟨by decide, by decide, by decide, by decide,
   ((onlyAfter_not_lexicographic.2.2.2.2.2.2.2.2.2.2 "2" "0" "0" 2 0 0 1 9 0
      (by decide) (by decide) (by decide) (by decide) (by decide) (by decide)
      (by decide) (by decide) (by decide)).2 (by decide) (Or.inl (by decide))).1,
   ((onlyAfter_not_lexicographic.2.2.2.2.2.2.2.2.2.2 "2" "0" "0" 2 0 0 1 9 0
      (by decide) (by decide) (by decide) (by decide) (by decide) (by decide)
      (by decide) (by decide) (by decide)).2 (by decide) (Or.inl (by decide))).2⟩

/-- C19 (the code at the failing input): for Version `1.15.1` of a release
install `patchOMatic` passes the file mode 755 written in decimal, which is not
the octal 0755 (decimal 493) that `ubuntuSetupDDjango` passes for
`setup-superuser.expect`. -/
theorem inject_modes_differ :
    (patchOMatic ⟨"/opt/dojo", ⟨"dojo", "dojo"⟩, ⟨"admin", "pw", ""⟩, "1.15.1", false⟩).1.head? =
      some (Action.injectFile "factory_2.0.3" "/opt/dojo/django-DefectDojo/dojo/tools" 755) ∧
    (ubuntuSetupDDjango (fun s => s) "ubuntu:18.04"
      ⟨"/opt/dojo", ⟨"dojo", "dojo"⟩, ⟨"admin", "pw", ""⟩, "1.15.1", false⟩ emptyCmds).1[1]? =
      some (Action.injectFile "setup-superuser.expect" "/opt/dojo/django-DefectDojo" 493) ∧
    (0o755 : Nat) = 493 ∧ (755 : Nat) ≠ 0o755 ∧ (755 : Nat) = 0o1363 := by
  decide

/-- C20: `patchOMatic` returns a nil error for every install config; so for every
id, config and bundle the actions of `ubuntuSetupDDjango` are the trace line and
the injection of the expect helper followed by the actions of `patchOMatic` and
nothing else: neither trace line of the `err != nil` branch is ever written. -/
theorem patchOMatic_error_always_nil (esc : String → String) (id : String)
    (inst : InstallConfig) (b : osCmds) :
    (patchOMatic inst).2 = none ∧
    (ubuntuSetupDDjango esc id inst b).1 =
      [Action.traceMsg
          ("Injecting file setup-superuser.expect at " ++ inst.Root ++ "/django-DefectDojo"),
        Action.injectFile "setup-superuser.expect" (inst.Root ++ "/django-DefectDojo") 0o755]
      ++ (patchOMatic inst).1 ∧
    Action.traceMsg "A failure of patchOMatic may lead to a corrupt install - be warned"
      ∉ (ubuntuSetupDDjango esc id inst b).1 ∧
    (∀ err : String, Action.traceMsg ("patchOMatic failed with non-blocking error: " ++ err)
      ∉ (ubuntuSetupDDjango esc id inst b).1) := by
  have herr : (patchOMatic inst).2 = none := by
    unfold patchOMatic
    split
    · rfl
    · split <;> rfl
  have hacts : (ubuntuSetupDDjango esc id inst b).1 =
      [Action.traceMsg
          ("Injecting file setup-superuser.expect at " ++ inst.Root ++ "/django-DefectDojo"),
        Action.injectFile "setup-superuser.expect" (inst.Root ++ "/django-DefectDojo") 0o755]
      ++ (patchOMatic inst).1 := by
    unfold ubuntuSetupDDjango
    simp only [herr]
    split <;> simp
  have hpatch : ∀ a ∈ (patchOMatic inst).1, ∀ m, a ≠ Action.traceMsg m := by
    intro a ha m
    unfold patchOMatic at ha
    split at ha
    · simp at ha
    · split at ha
      · simp at ha
        rcases ha with rfl | rfl | rfl <;> simp
      · simp at ha
  have hinj : ∀ m : String, m.data.head? ≠ some 'I' →
      Action.traceMsg m ∉ (ubuntuSetupDDjango esc id inst b).1 := by
    intro m hm hmem
    rw [hacts] at hmem
    simp only [List.cons_append, List.nil_append, List.mem_cons] at hmem
    rcases hmem with e | e | e
    · injection e with e'
      apply hm
      rw [e']
      rfl
    · cases e
    · exact hpatch _ e m rfl
  refine ⟨herr, hacts, hinj _ (by decide), fun err => hinj _ ?_⟩
  intro h
  have h2 : some 'p' = some 'I' := h
  exact absurd h2 (by decide)

/-- C16 (counterexample): `ubuntuInitOSInst` matches `UBUNTU:20.04`, fills the
bundle with six commands and stores the id as it was passed, in capitals, not the
lowercase `ubuntu:20.04`; and `ubuntuSetupDDjango` matches `ubuntu:20.04`, fills
the empty bundle and leaves its id field empty. -/
theorem stored_id_not_lowercased :
    (ubuntuInitOSInst "K" "R" "N" "UBUNTU:20.04" emptyCmds).cmds.length = 6 ∧
    (ubuntuInitOSInst "K" "R" "N" "UBUNTU:20.04" emptyCmds).id = "UBUNTU:20.04" ∧
    (ubuntuInitOSInst "K" "R" "N" "UBUNTU:20.04" emptyCmds).id ≠ "ubuntu:20.04" ∧
    (ubuntuInstPostgreSQL "Debian:10" emptyCmds).cmds.length = 1 ∧
    (ubuntuInstPostgreSQL "Debian:10" emptyCmds).id ≠ "debian:10" ∧
    (ubuntuSetupDDjango (fun s => s) "ubuntu:20.04"
      ⟨"/opt/dojo", ⟨"dojo", "dojo"⟩, ⟨"admin", "pw", ""⟩, "2.3.1", false⟩
      emptyCmds).2.cmds.length = 20 ∧
    (ubuntuSetupDDjango (fun s => s) "ubuntu:20.04"
      ⟨"/opt/dojo", ⟨"dojo", "dojo"⟩, ⟨"admin", "pw", ""⟩, "2.3.1", false⟩
      emptyCmds).2.id = "" := by
  decide

/-- C16 (amended): whenever one of the seven assemblers that assign the id field
matches a platform id, the id field of the bundle afterwards is the id exactly as
it was passed. For the five that switch on the id itself that is one of the four
lowercase Ubuntu ids; for `ubuntuInitOSInst` and `ubuntuInstPostgreSQL` it is the
caller's spelling, and its lowercase form is the matched platform. -/
theorem stored_id_is_passed_id (YarnGPG YarnRepo NodeURL : String) (inst : InstallConfig)
    (id : String) (b : osCmds) :
    (stringsToLower id ∈ debianUbuntuIds →
      (ubuntuInitOSInst YarnGPG YarnRepo NodeURL id b).id = id ∧
      stringsToLower (ubuntuInitOSInst YarnGPG YarnRepo NodeURL id b).id ∈ debianUbuntuIds) ∧
    (stringsToLower id ∈ debianUbuntuIds →
      (ubuntuInstPostgreSQL id b).id = id ∧
      stringsToLower (ubuntuInstPostgreSQL id b).id ∈ debianUbuntuIds) ∧
    (id ∈ ubuntuIds → (ubuntuInstSQLite id b).id = id ∧ (ubuntuInstSQLite id b).id ∈ ubuntuIds) ∧
    (id ∈ ubuntuIds →
      (ubuntuInstMariaDB id b).id = id ∧ (ubuntuInstMariaDB id b).id ∈ ubuntuIds) ∧
    (id ∈ ubuntuIds → (ubuntuInstMySQL id b).id = id ∧ (ubuntuInstMySQL id b).id ∈ ubuntuIds) ∧
    (id ∈ ubuntuIds →
      (ubuntuInstPostgreSQLClient id b).id = id ∧
      (ubuntuInstPostgreSQLClient id b).id ∈ ubuntuIds) ∧
    (id ∈ ubuntuIds →
      (ubuntuOSPrep id inst b).id = id ∧ (ubuntuOSPrep id inst b).id ∈ ubuntuIds) := by
  refine ⟨?_, ?_, ?_, ?_, ?_, ?_, ?_⟩
  · intro h
    have e : (ubuntuInitOSInst YarnGPG YarnRepo NodeURL id b).id = id := by
      simp only [ubuntuInitOSInst]
      rw [if_pos (mem_debianUbuntuIds.mp h)]
    exact ⟨e, by rw [e]; exact h⟩
  · intro h
    have e : (ubuntuInstPostgreSQL id b).id = id := by
      simp only [ubuntuInstPostgreSQL]
      rw [if_pos (mem_debianUbuntuIds.mp h)]
    exact ⟨e, by rw [e]; exact h⟩
  · intro h
    have e : (ubuntuInstSQLite id b).id = id := by
      simp only [ubuntuInstSQLite]
      rw [if_pos (mem_ubuntuIds.mp h)]
    exact ⟨e, by rw [e]; exact h⟩
  · intro h
    have e : (ubuntuInstMariaDB id b).id = id := by
      simp only [ubuntuInstMariaDB]
      rw [if_pos (mem_ubuntuIds.mp h)]
    exact ⟨e, by rw [e]; exact h⟩
  · intro h
    have e : (ubuntuInstMySQL id b).id = id := by
      simp only [ubuntuInstMySQL]
      rw [if_pos (mem_ubuntuIds.mp h)]
    exact ⟨e, by rw [e]; exact h⟩
  · intro h
    have e : (ubuntuInstPostgreSQLClient id b).id = id := by
      simp only [ubuntuInstPostgreSQLClient]
      rw [if_pos (mem_ubuntuIds.mp h)]
    exact ⟨e, by rw [e]; exact h⟩
  · intro h
    have e : (ubuntuOSPrep id inst b).id = id := by
      simp only [ubuntuOSPrep]
      rw [if_pos (mem_ubuntuIds.mp h)]
    exact ⟨e, by rw [e]; exact h⟩

/-- Witness for C16 (amended): `Ubuntu:21.04` at bootstrap, `ubuntu:21.04` for
SQLite. -/
theorem stored_id_is_passed_id_witness :
    stringsToLower "Ubuntu:21.04" ∈ debianUbuntuIds ∧ "ubuntu:21.04" ∈ ubuntuIds ∧
    (ubuntuInitOSInst "K" "R" "N" "Ubuntu:21.04" emptyCmds).id = "Ubuntu:21.04" ∧
    (ubuntuInstSQLite "ubuntu:21.04" emptyCmds).id = "ubuntu:21.04" :=
  ⟨by decide, by decide,
   ((stored_id_is_passed_id "K" "R" "N"
      ⟨"/opt/dojo", ⟨"dojo", "dojo"⟩, ⟨"admin", "pw", ""⟩, "2.3.1", false⟩ "Ubuntu:21.04"
      emptyCmds).1 (by decide)).1,
   ((stored_id_is_passed_id "K" "R" "N"
      ⟨"/opt/dojo", ⟨"dojo", "dojo"⟩, ⟨"admin", "pw", ""⟩, "2.3.1", false⟩ "ubuntu:21.04"
      emptyCmds).2.2.1 (by decide)).1⟩

/-- C11: in the bundles built on supported platform ids by `ubuntuInitOSInst`,
`ubuntuInstSQLite`, `ubuntuInstMariaDB`, `ubuntuInstMySQL`,
`ubuntuInstPostgreSQL` and `ubuntuInstPostgreSQLClient`, every command that holds
`apt-get` begins with `DEBIAN_FRONTEND=noninteractive apt-get`, the URL constants
YarnGPG, YarnRepo and NodeURL being taken not to hold `apt-get`. -/
theorem apt_get_is_noninteractive (YarnGPG YarnRepo NodeURL : String) (id : String)
    (hY : stringsContains YarnGPG "apt-get" = false)
    (hR : stringsContains YarnRepo "apt-get" = false)
    (hN : stringsContains NodeURL "apt-get" = false) :
    (id ∈ debianUbuntuIds →
      ∀ c ∈ (ubuntuInitOSInst YarnGPG YarnRepo NodeURL id emptyCmds).cmds,
        stringsContains c "apt-get" = true →
        stringsStartsWith c "DEBIAN_FRONTEND=noninteractive apt-get" = true) ∧
    (id ∈ ubuntuIds →
      ∀ c ∈ (ubuntuInstSQLite id emptyCmds).cmds, stringsContains c "apt-get" = true →
        stringsStartsWith c "DEBIAN_FRONTEND=noninteractive apt-get" = true) ∧
    (id ∈ ubuntuIds →
      ∀ c ∈ (ubuntuInstMariaDB id emptyCmds).cmds, stringsContains c "apt-get" = true →
        stringsStartsWith c "DEBIAN_FRONTEND=noninteractive apt-get" = true) ∧
    (id ∈ ubuntuIds →
      ∀ c ∈ (ubuntuInstMySQL id emptyCmds).cmds, stringsContains c "apt-get" = true →
        stringsStartsWith c "DEBIAN_FRONTEND=noninteractive apt-get" = true) ∧
    (id ∈ debianUbuntuIds →
      ∀ c ∈ (ubuntuInstPostgreSQL id emptyCmds).cmds, stringsContains c "apt-get" = true →
        stringsStartsWith c "DEBIAN_FRONTEND=noninteractive apt-get" = true) ∧
    (id ∈ ubuntuIds →
      ∀ c ∈ (ubuntuInstPostgreSQLClient id emptyCmds).cmds, stringsContains c "apt-get" = true →
        stringsStartsWith c "DEBIAN_FRONTEND=noninteractive apt-get" = true) := by
  refine ⟨?_, ?_, ?_, ?_, ?_, ?_⟩
  · intro h
    exact bootstrap_apt_get YarnGPG YarnRepo NodeURL id emptyCmds hY hR hN h
  · intro h c hc _
    simp only [ubuntuInstSQLite, if_pos (mem_ubuntuIds.mp h), List.mem_singleton] at hc
    subst hc
    decide
  · intro h c hc _
    simp only [ubuntuInstMariaDB, if_pos (mem_ubuntuIds.mp h), List.mem_singleton] at hc
    subst hc
    decide
  · intro h c hc _
    simp only [ubuntuInstMySQL, if_pos (mem_ubuntuIds.mp h), List.mem_singleton] at hc
    subst hc
    decide
  · intro h c hc _
    simp only [ubuntuInstPostgreSQL, if_pos (lower_mem_of_mem h), List.mem_singleton] at hc
    subst hc
    decide
  · intro h c hc hcon
    simp only [ubuntuInstPostgreSQLClient, if_pos (mem_ubuntuIds.mp h), List.mem_cons,
      List.mem_singleton, List.not_mem_nil, or_false] at hc
    rcases hc with rfl | rfl | rfl
    · decide
    · exact absurd hcon (by decide)
    · exact absurd hcon (by decide)

/-- Witness for C11: the bootstrap bundle for `debian:10` with the usual URLs. -/
theorem apt_get_is_noninteractive_witness :
    stringsContains "https://dl.yarnpkg.com/debian/pubkey.gpg" "apt-get" = false ∧
    "debian:10" ∈ debianUbuntuIds ∧
    (∀ c ∈ (ubuntuInitOSInst "https://dl.yarnpkg.com/debian/pubkey.gpg"
        "deb https://dl.yarnpkg.com/debian/ stable main"
        "https://deb.nodesource.com/setup_14.x" "debian:10" emptyCmds).cmds,
      stringsContains c "apt-get" = true →
      stringsStartsWith c "DEBIAN_FRONTEND=noninteractive apt-get" = true) :=
  ⟨by decide, by decide,
   (apt_get_is_noninteractive "https://dl.yarnpkg.com/debian/pubkey.gpg"
      "deb https://dl.yarnpkg.com/debian/ stable main"
      "https://deb.nodesource.com/setup_14.x" "debian:10" (by decide) (by decide)
      (by decide)).1 (by decide)⟩

/-- C14 (counterexample): for the file whose only line is `password = hunter2`
followed by a tab, the probe stores `hunter2` with the tab still at its end:
whitespace other than the blank is not removed. -/
theorem mysql_password_keeps_tab :
    '=' ∉ "hunter2\t".data ∧
    (ubuntuDefaultMySQL (some ⟨["password = " ++ "hunter2\t"], ScanErr.noErr⟩)
      (fun _ => none)).bind (fun c => c "pass") = some "hunter2\t" ∧
    noOuterWhitespace "hunter2\t" = false ∧ "hunter2\t" ≠ "hunter2" := by
  decide

/-- C14 (amended): for every file that opens and whose first line holding
`password` is `password = X` with no `=` in `X`, the probe returns with
user = `debian-sys-maint` and with pass = `X` without its leading and trailing
blanks (U+0020): `X` is some blanks, then pass, then some blanks, and pass neither
begins nor ends with a blank. -/
theorem mysql_password_blank_trimmed (pre post : List String) (X : String) (err : ScanErr)
    (c : Creds) (hpre : ∀ l ∈ pre, stringsContains l "password" = false)
    (hX : '=' ∉ X.data) (herr : err ≠ ScanErr.withLastLine) :
    ∃ (c' : Creds) (pass : String) (n m : Nat),
      ubuntuDefaultMySQL (some ⟨pre ++ ("password = " ++ X) :: post, err⟩) c = some c' ∧
      c' "user" = some "debian-sys-maint" ∧ c' "pass" = some pass ∧
      X.data = List.replicate n ' ' ++ pass.data ++ List.replicate m ' ' ∧
      pass.data.head? ≠ some ' ' ∧ pass.data.getLast? ≠ some ' ' := by
  have hskip : ∀ l ∈ pre, ¬ (stringsContains l "password" = true ∧ '=' ∈ l.data) := by
    intro l hl hh
    rw [hpre l hl] at hh
    cases hh.1
  have hcon : stringsContains ("password = " ++ X) "password" = true := rfl
  have hmem : '=' ∈ ("password = " ++ X).data := by
    simp [String.data_append]
  have hsplit : stringsSplit ("password = " ++ X) '=' = ["password ", String.mk (' ' :: X.data)] := by
    have hd : ("password = " ++ X).data = "password ".data ++ '=' :: (' ' :: X.data) := rfl
    unfold stringsSplit
    rw [hd, splitChars_append _ _ _ (by decide),
      splitChars_of_not_mem _ (' ' :: X.data) (by
        intro hh
        rcases List.mem_cons.mp hh with e | e
        · exact absurd e (by decide)
        · exact hX e)]
    rfl
  obtain ⟨a, b, t, hs, hscan⟩ := scanPassword_hit
    (setKey (setKey c "user" "debian-sys-maint") "pass" "FAIL") err ("password = " ++ X) post
    ⟨hcon, hmem⟩ herr
  rw [hsplit] at hs
  have hb : b = String.mk (' ' :: X.data) := by
    injection hs with _ h2
    injection h2 with h3 _
    exact h3.symm
  obtain ⟨n, m, h1, h2, h3⟩ := trim_spec_after_blank ' ' X.data
  refine ⟨setKey (setKey (setKey c "user" "debian-sys-maint") "pass" "FAIL") "pass"
    (stringsTrim b ' '), stringsTrim b ' ', n, m, ?_, ?_, ?_, ?_, ?_, ?_⟩
  · simp only [ubuntuDefaultMySQL]
    rw [scanPassword_skip _ _ _ _ hskip, hscan]
  · simp [setKey]
  · simp [setKey]
  · rw [hb]; exact h1
  · rw [hb]; exact h2
  · rw [hb]; exact h3

/-- Witness for C14 (amended): the line `password = hunter2` followed by a blank
gives pass = `hunter2`. -/
theorem mysql_password_blank_trimmed_witness :
    '=' ∉ "hunter2 ".data ∧
    (∃ (c' : Creds) (pass : String) (n m : Nat),
      ubuntuDefaultMySQL
        (some ⟨["[client]"] ++ ("password = " ++ "hunter2 ") :: ["socket = x"], ScanErr.noErr⟩)
        (fun _ => none) = some c' ∧
      c' "user" = some "debian-sys-maint" ∧ c' "pass" = some pass ∧
      "hunter2 ".data = List.replicate n ' ' ++ pass.data ++ List.replicate m ' ' ∧
      pass.data.head? ≠ some ' ' ∧ pass.data.getLast? ≠ some ' ') ∧
    (ubuntuDefaultMySQL (some ⟨["password = hunter2 "], ScanErr.noErr⟩)
      (fun _ => none)).bind (fun c => c "pass") = some "hunter2" :=
  ⟨by decide,
   mysql_password_blank_trimmed ["[client]"] ["socket = x"] "hunter2 " ScanErr.noErr
     (fun _ => none) (by decide) (by decide) (by decide),
   by decide⟩

/-- C15 (counterexample): two files with the same first line holding `password`,
a comment without `=`; the probe passes over that line and takes the pass from
the next line, so the two files give different maps. -/
theorem password_line_without_equals_skipped :
    stringsContains "# password" "password" = true ∧
    stringsContains "[client]" "password" = false ∧
    (ubuntuDefaultMySQL (some ⟨["[client]", "# password", "password = a"], ScanErr.noErr⟩)
      (fun _ => none)).bind (fun c => c "pass") = some "a" ∧
    (ubuntuDefaultMySQL (some ⟨["[client]", "# password", "password = b"], ScanErr.noErr⟩)
      (fun _ => none)).bind (fun c => c "pass") = some "b" := by
  decide

/-- C15 (amended): the pass the probe stores is decided by the first line that
holds `password` and a `=`; every later line is ignored. Two files that open and
agree up to and including that line give the same credential map, whatever
follows and whatever error the scanner would meet after that line. -/
theorem first_usable_password_line_decides (pre post1 post2 : List String) (line : String)
    (e1 e2 : ScanErr) (c : Creds)
    (hpre : ∀ l ∈ pre, ¬ (stringsContains l "password" = true ∧ '=' ∈ l.data))
    (hline : stringsContains line "password" = true ∧ '=' ∈ line.data)
    (h1 : e1 ≠ ScanErr.withLastLine) (h2 : e2 ≠ ScanErr.withLastLine) :
    ubuntuDefaultMySQL (some ⟨pre ++ line :: post1, e1⟩) c =
      ubuntuDefaultMySQL (some ⟨pre ++ line :: post2, e2⟩) c ∧
    (ubuntuDefaultMySQL (some ⟨pre ++ line :: post1, e1⟩) c).isSome = true := by
  obtain ⟨a, b, t, hs, hscan1⟩ := scanPassword_hit
    (setKey (setKey c "user" "debian-sys-maint") "pass" "FAIL") e1 line post1 hline h1
  obtain ⟨a', b', t', hs', hscan2⟩ := scanPassword_hit
    (setKey (setKey c "user" "debian-sys-maint") "pass" "FAIL") e2 line post2 hline h2
  have hb : b' = b := by
    rw [hs] at hs'
    injection hs' with _ h3
    injection h3 with h4 _
    exact h4.symm
  simp only [ubuntuDefaultMySQL]
  rw [scanPassword_skip _ _ _ _ hpre, scanPassword_skip _ _ _ _ hpre, hscan1, hscan2, hb]
  exact ⟨rfl, rfl⟩

/-- Witness for C15 (amended): a later `password` line and a later scan error
change nothing. -/
theorem first_usable_password_line_decides_witness :
    ubuntuDefaultMySQL
        (some ⟨["[client]", "# password"] ++ "password = a" :: ["password = b"],
          ScanErr.noErr⟩) (fun _ => none) =
      ubuntuDefaultMySQL
        (some ⟨["[client]", "# password"] ++ "password = a" :: [], ScanErr.afterLastLine⟩)
        (fun _ => none) ∧
    (ubuntuDefaultMySQL
        (some ⟨["[client]", "# password"] ++ "password = a" :: ["password = b"],
          ScanErr.noErr⟩) (fun _ => none)).isSome = true :=
  first_usable_password_line_decides ["[client]", "# password"] ["password = b"] []
    "password = a" ScanErr.noErr ScanErr.afterLastLine (fun _ => none) (by decide) (by decide)
    (by decide) (by decide)

/-- C18 (counterexample): the first component, twenty nines followed by `x`, is
not a decimal integer, yet `Atoi` returns the greatest `int` for it (the digits
overflow before the `x` is read), not 0; with two more non-numeric components
`onlyAfter` is true for the bound 1.0.0 although the major bound is above 0. -/
theorem nonnumeric_component_not_always_zero :
    decimalInt "99999999999999999999x" = none ∧ decimalInt "a" = none ∧
    decimalInt "b" = none ∧
    Atoi "99999999999999999999x" = (9223372036854775807, some NumError.errRange) ∧
    (Atoi "a").2 = some NumError.errSyn ∧ (Atoi "b").2 = some NumError.errSyn ∧
    onlyAfter "99999999999999999999x.a.b" 1 0 0 = true ∧
    ¬ ((1 : Int) ≤ 0 ∧ (0 : Int) ≤ 0 ∧ (0 : Int) ≤ 0) := by
  decide

/-- C18 (amended): `onlyAfter` never rejects a three-component version for a
non-numeric component: a component that `Atoi` rejects with a syntax error is
read as 0, so for three dot-free components each rejected with a syntax error
`onlyAfter` is true if and only if `major <= 0`, `minor <= 0` and `patch <= 0`.
Every string of at most 18 bytes that is not a decimal integer is rejected with a
syntax error. -/
theorem onlyAfter_syntax_error_components (b0 b1 b2 : String) (major minor patch : Int)
    (d0 : '.' ∉ b0.data) (d1 : '.' ∉ b1.data) (d2 : '.' ∉ b2.data)
    (e0 : (Atoi b0).2 = some NumError.errSyn) (e1 : (Atoi b1).2 = some NumError.errSyn)
    (e2 : (Atoi b2).2 = some NumError.errSyn) :
    (onlyAfter (b0 ++ "." ++ b1 ++ "." ++ b2) major minor patch = true ↔
      (major ≤ 0 ∧ minor ≤ 0 ∧ patch ≤ 0)) ∧
    (∀ s : String, decimalInt s = none → s.utf8ByteSize < 19 →
      Atoi s = (0, some NumError.errSyn)) := by
  constructor
  · unfold onlyAfter
    rw [stringsSplit_three b0 b1 b2 d0 d1 d2]
    simp only [Atoi_errSyn_zero b0 e0, Atoi_errSyn_zero b1 e1, Atoi_errSyn_zero b2 e2]
    by_cases h1 : (0 : Int) < major
    · rw [if_pos h1]
      constructor
      · intro h; cases h
      · intro h; omega
    · rw [if_neg h1]
      by_cases h2 : (0 : Int) < minor
      · rw [if_pos h2]
        constructor
        · intro h; cases h
        · intro h; omega
      · rw [if_neg h2]
        by_cases h3 : (0 : Int) < patch
        · rw [if_pos h3]
          constructor
          · intro h; cases h
          · intro h; omega
        · rw [if_neg h3]
          constructor
          · intro _; omega
          · intro _; rfl
  · intro s hs hlen
    have h2 := Atoi_short_nondecimal s hs hlen
    have h1 := Atoi_errSyn_zero s h2
    exact Prod.ext h1 h2

/-- Witness for C18 (amended): `onlyAfter("a.b.c", 0, 0, 0)` is true; and
`onlyAfter("2.x.0", 2, 0, 0)` is true, the `x` being read as 0. -/
theorem onlyAfter_syntax_error_components_witness :
    (onlyAfter ("a" ++ "." ++ "b" ++ "." ++ "c") 0 0 0 = true ↔
      ((0 : Int) ≤ 0 ∧ (0 : Int) ≤ 0 ∧ (0 : Int) ≤ 0)) ∧
    onlyAfter "a.b.c" 0 0 0 = true ∧ onlyAfter "a.b.c" 1 0 0 = false ∧
    onlyAfter "2.x.0" 2 0 0 = true ∧ Atoi "x" = (0, some NumError.errSyn) :=
  ⟨(onlyAfter_syntax_error_components "a" "b" "c" 0 0 0 (by decide) (by decide) (by decide)
      (by decide) (by decide) (by decide)).1,
   by decide, by decide, by decide, by decide⟩

end Godojo
